import Mathlib

/-!
# Blocking page-backed ring buffer (`src/projet/src/ringbuffer.c`)

Shallow embedding of `ringbuffer_create`, `ringbuffer_write`, `ringbuffer_read` and
`ringbuffer_close`.

* The channel lives in one page; a handle is the page address (`0` is the null pointer) and
  the pointee is a value of `ringbuffer`.
* Every call into the scheduler or the allocator, and every store to channel memory, is
  recorded in a trace of `Event`s, in program order.
* A loop iteration from `preempt_disable` to `preempt_enable` is one atomic step
  (`write_iter`, `read_iter`).  A call is run until it returns or until it reaches
  `sleep_on`; a suspended call is resumed at the loop head with its byte count intact
  (`write_resume`, `read_resume`), on whatever channel state the other tasks left.
* `PAGE_SIZE` comes from `mm.h`, which is not among the sources; it is a parameter.
-/

namespace RingBuffer

/-- One 8-bit memory cell (a `char` of the caller or a `uint8_t` of the channel). -/
abbrev Byte := Fin 256

/-- Truncation of a value to `uint32_t`. -/
def u32 (x : Nat) : Nat := x % 2 ^ 32

/-- The macro `RB_DATA_SIZE`, `PAGE_SIZE - (4 * sizeof(uint32_t))`. -/
def RB_DATA_SIZE (PAGE_SIZE : Nat) : Nat := PAGE_SIZE - 4 * 4

/-- The C type `struct ringbuffer`: the data array and the four `uint32_t` control words. -/
structure ringbuffer where
  buffer : Nat → Byte
  read_pos : Nat
  write_pos : Nat
  read_open : Nat
  write_open : Nat

/-- Calls to the external primitives and stores to memory, as they occur in program order. -/
inductive Event where
  | get_free_page
  | memzero (p len : Nat)
  | preempt_disable
  | preempt_enable
  | wake_up (chan : Nat)
  | sleep_on (chan : Nat)
  | free_page (p : Nat)
  | store_buffer (idx : Nat)
  | store_dst (idx : Nat)
  | store_read_pos
  | store_write_pos
  | store_read_open
  | store_write_open
  deriving DecidableEq, Repr

/-- How one iteration of a `while (i < n)` body ends: `return v`, `sleep_on` followed by
`continue`, or falling through after `i++`. -/
inductive Ctl where
  | ret (v : Int)
  | sleep
  | next
  deriving DecidableEq, Repr

/-- How a run of a call ends: it returned `v`, it is suspended inside `sleep_on` having
handled `i` bytes, or the model ran out of fuel (shown below never to happen). -/
inductive Outcome where
  | returned (v : Int)
  | blocked (i : Nat)
  | out_of_fuel
  deriving DecidableEq, Repr

/-- Result of `ringbuffer_create`: the returned pointer, the channel it points to (if any)
and the trace. -/
structure CreateResult where
  handle : Nat
  mem : Option ringbuffer
  trace : List Event

/-- Result of a run of `ringbuffer_write`. -/
structure WriteResult where
  rb : ringbuffer
  outcome : Outcome
  trace : List Event

/-- Result of a run of `ringbuffer_read`; `dst` is the caller's buffer afterwards. -/
structure ReadResult where
  rb : ringbuffer
  dst : Nat → Byte
  outcome : Outcome
  trace : List Event

/-- Modelled from the spec: `memzero` is not among the sources; by its contract
(`zeroFill(ptr, len)` fills a region with zero bytes) the page is all zeros after
`memzero(page, PAGE_SIZE)`, and so is every field of the `struct ringbuffer` laid over it,
whose size `RB_DATA_SIZE + 4 * sizeof(uint32_t)` is that of the page. -/
def memzero : ringbuffer :=
  { buffer := fun _ => 0, read_pos := 0, write_pos := 0, read_open := 0, write_open := 0 }

/-- The function `ringbuffer_create`; `page` is what `get_free_page()` returned. The
channel is the zero-filled page with both flags then set to 1. -/
def ringbuffer_create (page PAGE_SIZE : Nat) : CreateResult :=
  if page = 0 then
    { handle := 0, mem := none, trace := [Event.get_free_page] }
  else
    { handle := page
      mem := some { memzero with read_open := 1, write_open := 1 }
      trace := [Event.get_free_page, Event.memzero page PAGE_SIZE,
                Event.store_read_open, Event.store_write_open] }

/-- Body of the loop of `ringbuffer_write` for byte `i` (the guard `i < n` has passed). The
store `rb->buffer[rb->write_pos] = src[i]` is the update of storage, which is what it does
for a `write_pos` in range; `write_iter_paged` below carries it out on the page for any
`write_pos`. -/
def write_iter (PAGE_SIZE rbp : Nat) (rb : ringbuffer) (src : Nat → Byte) (i : Nat) :
    ringbuffer × Ctl × List Event :=
  if rb.read_open = 0 then
    (rb, Ctl.ret (-1), [Event.preempt_disable, Event.preempt_enable])
  else
    let next_write := u32 (u32 (rb.write_pos + 1) % RB_DATA_SIZE PAGE_SIZE)
    if next_write = rb.read_pos then
      (rb, Ctl.sleep,
        [Event.preempt_disable, Event.wake_up rbp, Event.preempt_enable, Event.sleep_on rbp])
    else
      ({ rb with buffer := Function.update rb.buffer rb.write_pos (src i)
                 write_pos := next_write },
        Ctl.next,
        [Event.preempt_disable, Event.store_buffer rb.write_pos, Event.store_write_pos,
          Event.preempt_enable])

/-- The loop `while (i < n)` of `ringbuffer_write` from the loop head with counter `i`, and
the code after it, run until the call returns or reaches `sleep_on`. -/
def write_loop (PAGE_SIZE rbp : Nat) (src : Nat → Byte) (n : Int) :
    Nat → Nat → ringbuffer → WriteResult
  | 0, _, rb => { rb := rb, outcome := Outcome.out_of_fuel, trace := [] }
  | fuel + 1, i, rb =>
    if (i : Int) < n then
      match write_iter PAGE_SIZE rbp rb src i with
      | (rb1, Ctl.ret v, tr) => { rb := rb1, outcome := Outcome.returned v, trace := tr }
      | (rb1, Ctl.sleep, tr) => { rb := rb1, outcome := Outcome.blocked i, trace := tr }
      | (rb1, Ctl.next, tr) =>
        let r := write_loop PAGE_SIZE rbp src n fuel (i + 1) rb1
        { rb := r.rb, outcome := r.outcome, trace := tr ++ r.trace }
    else
      { rb := rb, outcome := Outcome.returned i, trace := [Event.wake_up rbp] }

/-- A call of `ringbuffer_write` on a non-null handle continuing at the loop head with
`i` bytes already committed (`i = 0` at entry, or the count at which it was suspended). -/
def write_resume (PAGE_SIZE rbp : Nat) (rb : ringbuffer) (src : Nat → Byte) (n : Int)
    (i : Nat) : WriteResult :=
  write_loop PAGE_SIZE rbp src n ((n - i).toNat + 1) i rb

/-- The function `ringbuffer_write`, run until it returns or first reaches `sleep_on`. -/
def ringbuffer_write (PAGE_SIZE rbp : Nat) (rb : ringbuffer) (src : Nat → Byte) (n : Int) :
    WriteResult :=
  if rbp = 0 then { rb := rb, outcome := Outcome.returned (-1), trace := [] }
  else write_resume PAGE_SIZE rbp rb src n 0

/-- The 32-bit word `x` with its byte number `k` replaced by `b`; byte 0 is the least
significant one and, the target being little-endian, the one at the lowest address. -/
def set_byte (x k : Nat) (b : Byte) : Nat :=
  x - (x / 256 ^ k % 256) * 256 ^ k + b.val * 256 ^ k

/-- The C statement `rb->buffer[idx] = b` on the page, for any index. In `struct
ringbuffer` the array `buffer` comes first and has `C = RB_DATA_SIZE` bytes, and the words
`read_pos`, `write_pos`, `read_open`, `write_open` follow it in this order (`C` is a
multiple of 4, so nothing lies between them): an index from `C` to `C + 15` addresses a
byte of one of these words. A store past the end of the page is outside the channel and
leaves the channel as it is. -/
def store_buffer_at (C : Nat) (rb : ringbuffer) (idx : Nat) (b : Byte) : ringbuffer :=
  if idx < C then { rb with buffer := Function.update rb.buffer idx b }
  else if idx < C + 4 then { rb with read_pos := set_byte rb.read_pos (idx - C) b }
  else if idx < C + 8 then { rb with write_pos := set_byte rb.write_pos (idx - (C + 4)) b }
  else if idx < C + 12 then
    { rb with read_open := set_byte rb.read_open (idx - (C + 8)) b }
  else if idx < C + 16 then
    { rb with write_open := set_byte rb.write_open (idx - (C + 12)) b }
  else rb

/-- Body of the loop of `ringbuffer_write` for byte `i` with the store carried out on the
page (`store_buffer_at`), whatever `write_pos` is. For a `write_pos` in range this is
`write_iter`. -/
def write_iter_paged (PAGE_SIZE rbp : Nat) (rb : ringbuffer) (src : Nat → Byte) (i : Nat) :
    ringbuffer × Ctl × List Event :=
  if rb.read_open = 0 then
    (rb, Ctl.ret (-1), [Event.preempt_disable, Event.preempt_enable])
  else
    let next_write := u32 (u32 (rb.write_pos + 1) % RB_DATA_SIZE PAGE_SIZE)
    if next_write = rb.read_pos then
      (rb, Ctl.sleep,
        [Event.preempt_disable, Event.wake_up rbp, Event.preempt_enable, Event.sleep_on rbp])
    else
      ({ store_buffer_at (RB_DATA_SIZE PAGE_SIZE) rb rb.write_pos (src i) with
           write_pos := next_write },
        Ctl.next,
        [Event.preempt_disable, Event.store_buffer rb.write_pos, Event.store_write_pos,
          Event.preempt_enable])

/-- Body of the loop of `ringbuffer_read` for byte `i` (the guard `i < n` has passed). -/
def read_iter (PAGE_SIZE rbp : Nat) (rb : ringbuffer) (dst : Nat → Byte) (i : Nat) :
    ringbuffer × (Nat → Byte) × Ctl × List Event :=
  if rb.read_pos = rb.write_pos then
    if rb.write_open = 0 then
      (rb, dst, Ctl.ret i, [Event.preempt_disable, Event.preempt_enable])
    else
      (rb, dst, Ctl.sleep,
        [Event.preempt_disable, Event.wake_up rbp, Event.preempt_enable, Event.sleep_on rbp])
  else
    ({ rb with read_pos := u32 (u32 (rb.read_pos + 1) % RB_DATA_SIZE PAGE_SIZE) },
      Function.update dst i (rb.buffer rb.read_pos),
      Ctl.next,
      [Event.preempt_disable, Event.store_dst i, Event.store_read_pos, Event.preempt_enable])

/-- The loop `while (i < n)` of `ringbuffer_read` from the loop head with counter `i`, and
the code after it, run until the call returns or reaches `sleep_on`. -/
def read_loop (PAGE_SIZE rbp : Nat) (n : Int) :
    Nat → Nat → ringbuffer → (Nat → Byte) → ReadResult
  | 0, _, rb, dst => { rb := rb, dst := dst, outcome := Outcome.out_of_fuel, trace := [] }
  | fuel + 1, i, rb, dst =>
    if (i : Int) < n then
      match read_iter PAGE_SIZE rbp rb dst i with
      | (rb1, dst1, Ctl.ret v, tr) =>
        { rb := rb1, dst := dst1, outcome := Outcome.returned v, trace := tr }
      | (rb1, dst1, Ctl.sleep, tr) =>
        { rb := rb1, dst := dst1, outcome := Outcome.blocked i, trace := tr }
      | (rb1, dst1, Ctl.next, tr) =>
        let r := read_loop PAGE_SIZE rbp n fuel (i + 1) rb1 dst1
        { rb := r.rb, dst := r.dst, outcome := r.outcome, trace := tr ++ r.trace }
    else
      { rb := rb, dst := dst, outcome := Outcome.returned i, trace := [Event.wake_up rbp] }

/-- A call of `ringbuffer_read` on a non-null handle continuing at the loop head with
`i` bytes already delivered. -/
def read_resume (PAGE_SIZE rbp : Nat) (rb : ringbuffer) (dst : Nat → Byte) (n : Int)
    (i : Nat) : ReadResult :=
  read_loop PAGE_SIZE rbp n ((n - i).toNat + 1) i rb dst

/-- The function `ringbuffer_read`, run until it returns or first reaches `sleep_on`. -/
def ringbuffer_read (PAGE_SIZE rbp : Nat) (rb : ringbuffer) (dst : Nat → Byte) (n : Int) :
    ReadResult :=
  if rbp = 0 then { rb := rb, dst := dst, outcome := Outcome.returned (-1), trace := [] }
  else read_resume PAGE_SIZE rbp rb dst n 0

/-- The function `ringbuffer_close`: the channel afterwards and the trace. -/
def ringbuffer_close (rbp : Nat) (rb : ringbuffer) (is_writer : Int) :
    ringbuffer × List Event :=
  if rbp = 0 then (rb, [])
  else
    let rb1 : ringbuffer :=
      if is_writer ≠ 0 then { rb with write_open := 0 } else { rb with read_open := 0 }
    let st : Event := if is_writer ≠ 0 then Event.store_write_open else Event.store_read_open
    if rb1.read_open = 0 ∧ rb1.write_open = 0 then
      (rb1, [Event.preempt_disable, st, Event.wake_up rbp, Event.free_page rbp,
              Event.preempt_enable])
    else
      (rb1, [Event.preempt_disable, st, Event.wake_up rbp, Event.preempt_enable])

/-- Number of unread bytes for cursors `r`, `w` and capacity `C`: `(w - r) mod C`. -/
def used (C r w : Nat) : Nat := (w + C - r) % C

/-- The unread bytes of a channel, oldest first: the bytes stored at the indices
`read_pos`, `read_pos + 1`, ..., `write_pos - 1` (mod `C`). -/
def stored (C : Nat) (rb : ringbuffer) : List Byte :=
  (List.range (used C rb.read_pos rb.write_pos)).map
    (fun j => rb.buffer ((rb.read_pos + j) % C))

/-- The cursor-range invariant: both cursors are below the capacity `C`. -/
def cursors_ok (C : Nat) (rb : ringbuffer) : Prop := rb.read_pos < C ∧ rb.write_pos < C

instance (C : Nat) (rb : ringbuffer) : Decidable (cursors_ok C rb) :=
  inferInstanceAs (Decidable (rb.read_pos < C ∧ rb.write_pos < C))

/-- Caller memory holding the bytes `w` from offset 0 on. -/
def bytesOf (w : List Byte) : Nat → Byte := fun i => w.getD i 0

/-- The first `n` bytes of a caller buffer. -/
def firstBytes (dst : Nat → Byte) (n : Nat) : List Byte := (List.range n).map dst

/-- Successive calls `ringbuffer_write(rb, w, len w)` for the sources `w` of a list, each on
the channel left by the one before: the final channel and the result of every call. -/
def write_seq (PAGE_SIZE rbp : Nat) : ringbuffer → List (List Byte) →
    ringbuffer × List WriteResult
  | rb, [] => (rb, [])
  | rb, w :: ws =>
    let r := ringbuffer_write PAGE_SIZE rbp rb (bytesOf w) w.length
    let rest := write_seq PAGE_SIZE rbp r.rb ws
    (rest.1, r :: rest.2)

/-- Successive calls `ringbuffer_read(rb, buf, n)` for the lengths `n` of a list, into the
same caller buffer: the final channel and the result of every call. -/
def read_seq (PAGE_SIZE rbp : Nat) : ringbuffer → (Nat → Byte) → List Nat →
    ringbuffer × List ReadResult
  | rb, _, [] => (rb, [])
  | rb, dst, n :: ns =>
    let r := ringbuffer_read PAGE_SIZE rbp rb dst n
    let rest := read_seq PAGE_SIZE rbp r.rb r.dst ns
    (rest.1, r :: rest.2)

/-- The bytes delivered by a list of reads with the requested lengths `ns`, in order. -/
def delivered_by : List ReadResult → List Nat → List Byte
  | r :: rs, n :: ns => firstBytes r.dst n ++ delivered_by rs ns
  | _, _ => []

/-- Successive calls of `ringbuffer_close` on one handle with the given `is_writer`
arguments; the page keeps its contents across `free_page`. -/
def close_seq (rbp : Nat) : ringbuffer → List Int → ringbuffer × List Event
  | rb, [] => (rb, [])
  | rb, w :: ws =>
    let r := ringbuffer_close rbp rb w
    let rest := close_seq rbp r.1 ws
    (rest.1, r.2 ++ rest.2)

/-- How many times a trace releases the page `rbp`. -/
def frees (rbp : Nat) (tr : List Event) : Nat := tr.count (Event.free_page rbp)

/-- A channel together with the history of the bytes committed by the writer and of the
bytes delivered to the reader. -/
structure Sys where
  rb : ringbuffer
  committed : List Byte
  delivered : List Byte

/-- One atomic step of a task on the channel: a loop iteration of a write call for byte `i`
of `src`, a loop iteration of a read call for slot `i` of `dst`, or a close. -/
inductive Action where
  | write_byte (src : Nat → Byte) (i : Nat)
  | read_byte (dst : Nat → Byte) (i : Nat)
  | close (is_writer : Int)

/-- Effect of one step; the histories grow exactly when the iteration commits or consumes. -/
def Sys.step (PAGE_SIZE rbp : Nat) (s : Sys) : Action → Sys
  | Action.write_byte src i =>
    match write_iter PAGE_SIZE rbp s.rb src i with
    | (rb1, Ctl.next, _) =>
      { rb := rb1, committed := s.committed ++ [src i], delivered := s.delivered }
    | (rb1, _, _) => { s with rb := rb1 }
  | Action.read_byte dst i =>
    match read_iter PAGE_SIZE rbp s.rb dst i with
    | (rb1, dst1, Ctl.next, _) =>
      { rb := rb1, committed := s.committed, delivered := s.delivered ++ [dst1 i] }
    | (rb1, _, _, _) => { s with rb := rb1 }
  | Action.close is_writer => { s with rb := (ringbuffer_close rbp s.rb is_writer).1 }

/-- States reachable from a freshly created channel by any interleaving of steps. -/
inductive Reachable (PAGE_SIZE rbp : Nat) : Sys → Prop where
  | init (rb : ringbuffer) (h : (ringbuffer_create rbp PAGE_SIZE).mem = some rb) :
      Reachable PAGE_SIZE rbp { rb := rb, committed := [], delivered := [] }
  | step (s : Sys) (a : Action) (h : Reachable PAGE_SIZE rbp s) :
      Reachable PAGE_SIZE rbp (s.step PAGE_SIZE rbp a)

/-- What a run of the write loop from counter `i` on the channel `rb` achieves, for some
number `k` of bytes committed: the effect on the channel and how the run ends. -/
def WriteRun (C rbp : Nat) (src : Nat → Byte) (n : Int) (i : Nat) (rb : ringbuffer)
    (r : WriteResult) : Prop :=
  ∃ k : Nat, k ≤ (n - i).toNat ∧
    used C r.rb.read_pos r.rb.write_pos = used C rb.read_pos rb.write_pos + k ∧
    r.rb.read_pos = rb.read_pos ∧ r.rb.read_open = rb.read_open ∧
    r.rb.write_open = rb.write_open ∧
    r.rb.write_pos = (rb.write_pos + k) % C ∧
    stored C r.rb = stored C rb ++ (List.range k).map (fun j => src (i + j)) ∧
    (∀ j, j < k → r.rb.buffer ((rb.write_pos + j) % C) = src (i + j)) ∧
    (∀ x, (∀ j, j < k → x ≠ (rb.write_pos + j) % C) → r.rb.buffer x = rb.buffer x) ∧
    ((r.outcome = Outcome.returned ((i + k : Nat) : Int) ∧ k = (n - i).toNat ∧
        Event.sleep_on rbp ∉ r.trace) ∨
     (r.outcome = Outcome.blocked (i + k) ∧ k < (n - i).toNat ∧
        used C r.rb.read_pos r.rb.write_pos = C - 1 ∧ Event.sleep_on rbp ∈ r.trace))

/-- What a run of the read loop from counter `i` on the channel `rb` with caller buffer
`dst` achieves, for some number `k` of bytes consumed. -/
def ReadRun (C rbp : Nat) (n : Int) (i : Nat) (rb : ringbuffer) (dst : Nat → Byte)
    (r : ReadResult) : Prop :=
  ∃ k : Nat, k ≤ (n - i).toNat ∧ k ≤ used C rb.read_pos rb.write_pos ∧
    r.rb = { rb with read_pos := (rb.read_pos + k) % C } ∧
    stored C rb = (List.range k).map (fun j => r.dst (i + j)) ++ stored C r.rb ∧
    (∀ j, j < k → r.dst (i + j) = rb.buffer ((rb.read_pos + j) % C)) ∧
    (∀ x, x < i ∨ i + k ≤ x → r.dst x = dst x) ∧
    ((r.outcome = Outcome.returned ((i + k : Nat) : Int) ∧
        (k = (n - i).toNat ∨
          (rb.write_open = 0 ∧ k = used C rb.read_pos rb.write_pos)) ∧
        Event.sleep_on rbp ∉ r.trace) ∨
     (r.outcome = Outcome.blocked (i + k) ∧ k < (n - i).toNat ∧
        k = used C rb.read_pos rb.write_pos ∧ rb.write_open ≠ 0 ∧
        Event.sleep_on rbp ∈ r.trace))

/-- Both endpoints of the channel are closed. -/
def both_closed (rb : ringbuffer) : Prop := rb.read_open = 0 ∧ rb.write_open = 0

instance (rb : ringbuffer) : Decidable (both_closed rb) :=
  inferInstanceAs (Decidable (rb.read_open = 0 ∧ rb.write_open = 0))

/-- A sequence of close calls that issues no call once both endpoints are closed: before
each call of the sequence at least one flag is still set. -/
def closes_before_release (rbp : Nat) : ringbuffer → List Int → Prop
  | _, [] => True
  | rb, w :: ws =>
    ¬ both_closed rb ∧ closes_before_release rbp (ringbuffer_close rbp rb w).1 ws

/-- Effect of one event on the exclusive section (`true`: preemption is disabled), or
`none` if the event breaks the discipline: `preempt_disable` inside the section,
`preempt_enable` outside it, a store to the channel outside it, `sleep_on` inside it. -/
def section_step (inside : Bool) : Event → Option Bool
  | Event.preempt_disable => if inside then none else some true
  | Event.preempt_enable => if inside then some false else none
  | Event.sleep_on _ => if inside then none else some false
  | Event.store_buffer _ => if inside then some true else none
  | Event.store_read_pos => if inside then some true else none
  | Event.store_write_pos => if inside then some true else none
  | Event.store_read_open => if inside then some true else none
  | Event.store_write_open => if inside then some true else none
  | _ => some inside

/-- The section state after a trace, or `none` if some event breaks the discipline. -/
def section_run : Bool → List Event → Option Bool
  | b, [] => some b
  | b, e :: es =>
    match section_step b e with
    | none => none
    | some b2 => section_run b2 es

/-- A trace that starts and ends with the section released and never breaks the
discipline on the way. -/
def disciplined (tr : List Event) : Prop := section_run false tr = some false

instance (tr : List Event) : Decidable (disciplined tr) :=
  inferInstanceAs (Decidable (section_run false tr = some false))

/-- The bytes a run of a write call put into storage: the contents, after the run, of the
slots from the `write_pos` before the run up to the `write_pos` after it. -/
def run_committed (C : Nat) (before after : ringbuffer) : List Byte :=
  (List.range (used C before.write_pos after.write_pos)).map
    (fun t => after.buffer ((before.write_pos + t) % C))

/-- A whole execution of a write call that returns `v`, from the loop head with counter
`i` on the channel `rb`: a run that returns, or a run that ends in `sleep_on` followed, on
whatever channel `rb2` (within the cursor range) the other tasks have left when the call
is woken, by the rest of the execution. The indices are the returned value, the bytes put
into storage and the trace, both over all the runs. -/
inductive WriteCall (PAGE_SIZE rbp : Nat) (src : Nat → Byte) (n : Int) :
    Nat → ringbuffer → Int → List Byte → List Event → Prop where
  | returns (i : Nat) (rb : ringbuffer) (v : Int)
      (h : (write_resume PAGE_SIZE rbp rb src n i).outcome = Outcome.returned v) :
      WriteCall PAGE_SIZE rbp src n i rb v
        (run_committed (RB_DATA_SIZE PAGE_SIZE) rb (write_resume PAGE_SIZE rbp rb src n i).rb)
        (write_resume PAGE_SIZE rbp rb src n i).trace
  | resumed (i j : Nat) (rb rb2 : ringbuffer) (v : Int) (log : List Byte) (tr : List Event)
      (h : (write_resume PAGE_SIZE rbp rb src n i).outcome = Outcome.blocked j)
      (hpeer : cursors_ok (RB_DATA_SIZE PAGE_SIZE) rb2)
      (hrest : WriteCall PAGE_SIZE rbp src n j rb2 v log tr) :
      WriteCall PAGE_SIZE rbp src n i rb v
        (run_committed (RB_DATA_SIZE PAGE_SIZE) rb (write_resume PAGE_SIZE rbp rb src n i).rb
          ++ log)
        ((write_resume PAGE_SIZE rbp rb src n i).trace ++ tr)

end RingBuffer

/-!
# Network driver shell (`src/projet/src/net.c`)

Shallow embedding of `usb_core_reset` and `net_send_packet`. The reset register is
memory-mapped: what its successive reads return is an input, a stream `reads` indexed by
the number of reads made so far. `net.h`, which declares `struct net_device`, the
`NET_STATE_*` values and `ETH_FRAME_LEN`, is not among the sources: the constants are
parameters, and the fields of the device are those `net.c` uses.
-/

namespace Net

/-- Offset `USB_GRSTCTL` of the reset register. -/
def USB_GRSTCTL : Nat := 0x010

/-- The mask `USB_GRSTCTL_CSFTRST`, `(1 << 0)`. -/
def USB_GRSTCTL_CSFTRST : Nat := 2 ^ 0

/-- The mask `USB_GRSTCTL_AHBIDLE`, `(1 << 31)`. -/
def USB_GRSTCTL_AHBIDLE : Nat := 2 ^ 31

/-- Register accesses, delays and messages of `usb_core_reset`, in program order. -/
inductive UsbEvent where
  | usb_read (reg : Nat)
  | usb_write (reg value : Nat)
  | delay (n : Nat)
  | printf_ahb_timeout
  | printf_reset_timeout
  deriving DecidableEq, Repr

/-- How a polling loop ends: the loop condition failed and the next read of the register
will be read number `next`, the countdown reached zero, or the model ran out of fuel. -/
inductive LoopEnd where
  | exited (next : Nat)
  | timed_out
  | out_of_fuel
  deriving DecidableEq, Repr

/-- The condition of the first loop: `!(usb_read(USB_GRSTCTL) & USB_GRSTCTL_AHBIDLE)`. -/
def ahb_busy (v : Nat) : Bool := v &&& USB_GRSTCTL_AHBIDLE == 0

/-- The condition of the second loop: `usb_read(USB_GRSTCTL) & USB_GRSTCTL_CSFTRST`. -/
def reset_pending (v : Nat) : Bool := v &&& USB_GRSTCTL_CSFTRST != 0

/-- The value of a `uint32_t` after `--`. -/
def u32_dec (t : Nat) : Nat := (t + 2 ^ 32 - 1) % 2 ^ 32

/-- The shape shared by the two loops of `usb_core_reset`,
`while (cond(usb_read(USB_GRSTCTL))) { if (--timeout == 0) { printf(msg); return -1; }
delay(10); }`, from a state with countdown `timeout` where the next read is number `k`. -/
def poll_loop (cond : Nat → Bool) (msg : UsbEvent) (reads : Nat → Nat) :
    Nat → Nat → Nat → LoopEnd × List UsbEvent
  | 0, _, _ => (LoopEnd.out_of_fuel, [])
  | fuel + 1, timeout, k =>
    if cond (reads k) then
      let timeout1 := u32_dec timeout
      if timeout1 = 0 then
        (LoopEnd.timed_out, [UsbEvent.usb_read USB_GRSTCTL, msg])
      else
        let r := poll_loop cond msg reads fuel timeout1 (k + 1)
        (r.1, [UsbEvent.usb_read USB_GRSTCTL, UsbEvent.delay 10] ++ r.2)
    else
      (LoopEnd.exited (k + 1), [UsbEvent.usb_read USB_GRSTCTL])

/-- Result of `usb_core_reset`: the returned value (`none` if the model ran out of fuel,
shown below never to happen) and the trace. -/
structure ResetResult where
  ret : Option Int
  trace : List UsbEvent
  deriving DecidableEq, Repr

/-- The function `usb_core_reset`. -/
def usb_core_reset (reads : Nat → Nat) : ResetResult :=
  match poll_loop ahb_busy UsbEvent.printf_ahb_timeout reads 10000 10000 0 with
  | (LoopEnd.timed_out, tr) => { ret := some (-1), trace := tr }
  | (LoopEnd.out_of_fuel, tr) => { ret := none, trace := tr }
  | (LoopEnd.exited k, tr) =>
    match poll_loop reset_pending UsbEvent.printf_reset_timeout reads 10000 10000 k with
    | (LoopEnd.timed_out, tr2) =>
      { ret := some (-1)
        trace := tr ++ [UsbEvent.usb_write USB_GRSTCTL USB_GRSTCTL_CSFTRST] ++ tr2 }
    | (LoopEnd.out_of_fuel, tr2) =>
      { ret := none
        trace := tr ++ [UsbEvent.usb_write USB_GRSTCTL USB_GRSTCTL_CSFTRST] ++ tr2 }
    | (LoopEnd.exited _, tr2) =>
      { ret := some 0
        trace := tr ++ [UsbEvent.usb_write USB_GRSTCTL USB_GRSTCTL_CSFTRST] ++ tr2
          ++ [UsbEvent.delay 1000] }

/-- The global `net_dev`: the fields of `struct net_device` that `net.c` uses. -/
structure net_device where
  mac_addr : List Nat
  state : Nat
  link_speed : Nat
  rx_packets : Nat
  tx_packets : Nat
  rx_errors : Nat
  tx_errors : Nat
  deriving DecidableEq, Repr

/-- The function `net_send_packet`: the returned value and `net_dev` afterwards. The
packet bytes are not used by the code. `CTR_MOD` is the number of values of the integer
type of the counters, so that `++` is the successor modulo `CTR_MOD`. -/
def net_send_packet (NET_STATE_UP NET_STATE_LINK_UP ETH_FRAME_LEN CTR_MOD : Nat)
    (net_dev : net_device) (length : Nat) : Int × net_device :=
  if net_dev.state ≠ NET_STATE_UP ∧ net_dev.state ≠ NET_STATE_LINK_UP then
    (-1, net_dev)
  else if length > ETH_FRAME_LEN then
    (-2, { net_dev with tx_errors := (net_dev.tx_errors + 1) % CTR_MOD })
  else
    (0, { net_dev with tx_packets := (net_dev.tx_packets + 1) % CTR_MOD })

end Net

namespace RingBuffer

/-! ## Arithmetic of the cursors -/

theorem mod_of_lt_two_mul (x C : Nat) (h : x < 2 * C) :
    x % C = if x < C then x else x - C := by
  split_ifs with hx
  · exact Nat.mod_eq_of_lt hx
  · rw [Nat.mod_eq_sub_mod (by omega)]
    exact Nat.mod_eq_of_lt (by omega)

theorem adv_eq (C pos : Nat) (h32 : C ≤ 2 ^ 32) (h : pos < C) :
    u32 (u32 (pos + 1) % C) = (pos + 1) % C := by
  unfold u32
  have hm := mod_of_lt_two_mul (pos + 1) C (by omega)
  rcases Nat.lt_or_ge (pos + 1) (2 ^ 32) with h1 | h1
  · rw [Nat.mod_eq_of_lt h1]
    apply Nat.mod_eq_of_lt
    have := Nat.mod_lt (pos + 1) (show 0 < C by omega)
    omega
  · have hC : C = 2 ^ 32 := by omega
    have hp : pos + 1 = 2 ^ 32 := by omega
    rw [hp, hC]
    simp

theorem adv_lt (C pos : Nat) (hC : 0 < C) : (pos + 1) % C < C := Nat.mod_lt _ hC

theorem used_eq (C r w : Nat) (hr : r < C) (hw : w < C) :
    used C r w = if r ≤ w then w - r else w + C - r := by
  unfold used
  rw [mod_of_lt_two_mul _ _ (by omega)]
  split_ifs <;> omega

theorem used_lt (C r w : Nat) (hr : r < C) (hw : w < C) : used C r w < C := by
  rw [used_eq C r w hr hw]; split_ifs <;> omega

theorem used_eq_zero_iff (C r w : Nat) (hr : r < C) (hw : w < C) :
    used C r w = 0 ↔ r = w := by
  rw [used_eq C r w hr hw]; split_ifs <;> omega

theorem full_iff (C r w : Nat) (hr : r < C) (hw : w < C) :
    (w + 1) % C = r ↔ used C r w = C - 1 := by
  rw [used_eq C r w hr hw, mod_of_lt_two_mul _ _ (by omega)]
  split_ifs <;> omega

theorem used_push (C r w : Nat) (hr : r < C) (hw : w < C) (h : (w + 1) % C ≠ r) :
    used C r ((w + 1) % C) = used C r w + 1 := by
  have hC : 0 < C := by omega
  rw [used_eq C r w hr hw, used_eq C r _ hr (adv_lt C w hC)]
  rw [mod_of_lt_two_mul _ _ (by omega)] at h ⊢
  split_ifs at h ⊢ <;> omega

theorem used_pop (C r w : Nat) (hr : r < C) (hw : w < C) (h : r ≠ w) :
    used C r w = used C ((r + 1) % C) w + 1 := by
  have hC : 0 < C := by omega
  rw [used_eq C r w hr hw, used_eq C _ w (adv_lt C r hC) hw]
  rw [mod_of_lt_two_mul _ _ (by omega)]
  split_ifs <;> omega

theorem idx_used (C r w : Nat) (hr : r < C) (hw : w < C) : (r + used C r w) % C = w := by
  rw [used_eq C r w hr hw]
  split_ifs
  · rw [mod_of_lt_two_mul _ _ (by omega)]; split_ifs <;> omega
  · rw [mod_of_lt_two_mul _ _ (by omega)]; split_ifs <;> omega

theorem idx_inj (C r j k : Nat) (hr : r < C) (hj : j < C) (hk : k < C)
    (h : (r + j) % C = (r + k) % C) : j = k := by
  rw [mod_of_lt_two_mul _ _ (by omega), mod_of_lt_two_mul _ _ (by omega)] at h
  split_ifs at h <;> omega

theorem idx_succ (C r j : Nat) : ((r + 1) % C + j) % C = (r + (j + 1)) % C := by
  rw [Nat.mod_add_mod]; congr 1; omega

/-! ## One loop iteration -/

theorem write_iter_closed (PAGE_SIZE rbp : Nat) (rb : ringbuffer) (src : Nat → Byte) (i : Nat)
    (h : rb.read_open = 0) :
    write_iter PAGE_SIZE rbp rb src i =
      (rb, Ctl.ret (-1), [Event.preempt_disable, Event.preempt_enable]) := by
  simp [write_iter, h]

theorem write_iter_full (PAGE_SIZE rbp : Nat) (rb : ringbuffer) (src : Nat → Byte) (i : Nat)
    (h32 : RB_DATA_SIZE PAGE_SIZE ≤ 2 ^ 32) (hok : cursors_ok (RB_DATA_SIZE PAGE_SIZE) rb)
    (hro : rb.read_open ≠ 0)
    (hfull : used (RB_DATA_SIZE PAGE_SIZE) rb.read_pos rb.write_pos
      = RB_DATA_SIZE PAGE_SIZE - 1) :
    write_iter PAGE_SIZE rbp rb src i =
      (rb, Ctl.sleep, [Event.preempt_disable, Event.wake_up rbp, Event.preempt_enable,
        Event.sleep_on rbp]) := by
  have hf := (full_iff _ _ _ hok.1 hok.2).mpr hfull
  simp [write_iter, hro, adv_eq _ _ h32 hok.2, hf]

theorem write_iter_commit (PAGE_SIZE rbp : Nat) (rb : ringbuffer) (src : Nat → Byte) (i : Nat)
    (h32 : RB_DATA_SIZE PAGE_SIZE ≤ 2 ^ 32) (hok : cursors_ok (RB_DATA_SIZE PAGE_SIZE) rb)
    (hro : rb.read_open ≠ 0)
    (hnf : used (RB_DATA_SIZE PAGE_SIZE) rb.read_pos rb.write_pos
      ≠ RB_DATA_SIZE PAGE_SIZE - 1) :
    write_iter PAGE_SIZE rbp rb src i =
      ({ rb with buffer := Function.update rb.buffer rb.write_pos (src i)
                 write_pos := (rb.write_pos + 1) % RB_DATA_SIZE PAGE_SIZE },
        Ctl.next,
        [Event.preempt_disable, Event.store_buffer rb.write_pos, Event.store_write_pos,
          Event.preempt_enable]) := by
  have hf : ¬ (rb.write_pos + 1) % RB_DATA_SIZE PAGE_SIZE = rb.read_pos :=
    fun h => hnf ((full_iff _ _ _ hok.1 hok.2).mp h)
  simp [write_iter, hro, adv_eq _ _ h32 hok.2, hf]

theorem read_iter_eof (PAGE_SIZE rbp : Nat) (rb : ringbuffer) (dst : Nat → Byte) (i : Nat)
    (he : rb.read_pos = rb.write_pos) (hwo : rb.write_open = 0) :
    read_iter PAGE_SIZE rbp rb dst i =
      (rb, dst, Ctl.ret i, [Event.preempt_disable, Event.preempt_enable]) := by
  simp [read_iter, he, hwo]

theorem read_iter_empty (PAGE_SIZE rbp : Nat) (rb : ringbuffer) (dst : Nat → Byte) (i : Nat)
    (he : rb.read_pos = rb.write_pos) (hwo : rb.write_open ≠ 0) :
    read_iter PAGE_SIZE rbp rb dst i =
      (rb, dst, Ctl.sleep, [Event.preempt_disable, Event.wake_up rbp, Event.preempt_enable,
        Event.sleep_on rbp]) := by
  simp [read_iter, he, hwo]

theorem read_iter_consume (PAGE_SIZE rbp : Nat) (rb : ringbuffer) (dst : Nat → Byte) (i : Nat)
    (h32 : RB_DATA_SIZE PAGE_SIZE ≤ 2 ^ 32) (hok : cursors_ok (RB_DATA_SIZE PAGE_SIZE) rb)
    (hne : rb.read_pos ≠ rb.write_pos) :
    read_iter PAGE_SIZE rbp rb dst i =
      ({ rb with read_pos := (rb.read_pos + 1) % RB_DATA_SIZE PAGE_SIZE },
        Function.update dst i (rb.buffer rb.read_pos),
        Ctl.next,
        [Event.preempt_disable, Event.store_dst i, Event.store_read_pos,
          Event.preempt_enable]) := by
  simp [read_iter, hne, adv_eq _ _ h32 hok.1]

/-! ## The unread bytes across a commit and across a consume -/

theorem stored_push (C : Nat) (rb : ringbuffer) (b : Byte) (hok : cursors_ok C rb)
    (hnf : used C rb.read_pos rb.write_pos ≠ C - 1) :
    stored C { rb with buffer := Function.update rb.buffer rb.write_pos b
                       write_pos := (rb.write_pos + 1) % C }
      = stored C rb ++ [b] := by
  obtain ⟨hr, hw⟩ := hok
  have hne : (rb.write_pos + 1) % C ≠ rb.read_pos :=
    fun h => hnf ((full_iff _ _ _ hr hw).mp h)
  have hu := used_lt C _ _ hr hw
  simp only [stored, used_push C _ _ hr hw hne, List.range_succ, List.map_append,
    List.map_cons, List.map_nil, idx_used C _ _ hr hw, Function.update_same]
  congr 1
  · apply List.map_congr_left
    intro j hj
    have hj' : j < used C rb.read_pos rb.write_pos := List.mem_range.mp hj
    apply Function.update_noteq
    intro h
    rw [← idx_used C _ _ hr hw] at h
    have := idx_inj C _ _ _ hr (by omega) hu h
    omega
  · rw [idx_used C _ _ hr hw, Function.update_same]

theorem stored_pop (C : Nat) (rb : ringbuffer) (hok : cursors_ok C rb)
    (hne : rb.read_pos ≠ rb.write_pos) :
    stored C rb
      = rb.buffer rb.read_pos :: stored C { rb with read_pos := (rb.read_pos + 1) % C } := by
  obtain ⟨hr, hw⟩ := hok
  simp only [stored, used_pop C _ _ hr hw hne, List.range_succ_eq_map, List.map_cons,
    List.map_map, Nat.add_zero, Nat.mod_eq_of_lt hr]
  congr 1
  apply List.map_congr_left
  intro j _
  simp only [Function.comp, idx_succ]

/-! ## The fuel given to the loops is enough -/

theorem write_loop_fuel (PAGE_SIZE rbp : Nat) (src : Nat → Byte) (n : Int) :
    ∀ (fuel i : Nat) (rb : ringbuffer), (n - i).toNat < fuel →
      (write_loop PAGE_SIZE rbp src n fuel i rb).outcome ≠ Outcome.out_of_fuel := by
  intro fuel
  induction fuel with
  | zero => intro i rb h; omega
  | succ fuel ih =>
    intro i rb hfuel
    unfold write_loop
    by_cases hlt : (i : Int) < n
    · rw [if_pos hlt]
      have hrec := fun rb1 => ih (i + 1) rb1 (by omega)
      unfold write_iter
      by_cases hro : rb.read_open = 0
      · simp [hro]
      · by_cases hf : u32 (u32 (rb.write_pos + 1) % RB_DATA_SIZE PAGE_SIZE) = rb.read_pos
        · simp [hro, hf]
        · simpa [hro, hf] using hrec _
    · rw [if_neg hlt]
      simp

theorem read_loop_fuel (PAGE_SIZE rbp : Nat) (n : Int) :
    ∀ (fuel i : Nat) (rb : ringbuffer) (dst : Nat → Byte), (n - i).toNat < fuel →
      (read_loop PAGE_SIZE rbp n fuel i rb dst).outcome ≠ Outcome.out_of_fuel := by
  intro fuel
  induction fuel with
  | zero => intro i rb dst h; omega
  | succ fuel ih =>
    intro i rb dst hfuel
    unfold read_loop
    by_cases hlt : (i : Int) < n
    · rw [if_pos hlt]
      have hrec := fun rb1 dst1 => ih (i + 1) rb1 dst1 (by omega)
      unfold read_iter
      by_cases he : rb.read_pos = rb.write_pos
      · by_cases hwo : rb.write_open = 0 <;> simp [he, hwo]
      · simpa [he] using hrec _ _
    · rw [if_neg hlt]
      simp

theorem write_resume_total (PAGE_SIZE rbp : Nat) (rb : ringbuffer) (src : Nat → Byte)
    (n : Int) (i : Nat) :
    (write_resume PAGE_SIZE rbp rb src n i).outcome ≠ Outcome.out_of_fuel :=
  write_loop_fuel PAGE_SIZE rbp src n _ i rb (by omega)

theorem read_resume_total (PAGE_SIZE rbp : Nat) (rb : ringbuffer) (dst : Nat → Byte)
    (n : Int) (i : Nat) :
    (read_resume PAGE_SIZE rbp rb dst n i).outcome ≠ Outcome.out_of_fuel :=
  read_loop_fuel PAGE_SIZE rbp n _ i rb dst (by omega)

/-! ## The write loop -/

theorem ring_ne (C w j : Nat) (hw : w < C) (hj : 0 < j) (hjC : j < C) : (w + j) % C ≠ w := by
  rw [mod_of_lt_two_mul _ _ (by omega)]
  split_ifs <;> omega

theorem WriteRun_stop (C rbp : Nat) (src : Nat → Byte) (n : Int) (i : Nat) (rb : ringbuffer)
    (hok : cursors_ok C rb) (o : Outcome) (tr : List Event)
    (h : (o = Outcome.returned (i : Int) ∧ (n - i).toNat = 0 ∧ Event.sleep_on rbp ∉ tr) ∨
      (o = Outcome.blocked i ∧ 0 < (n - i).toNat ∧
        used C rb.read_pos rb.write_pos = C - 1 ∧ Event.sleep_on rbp ∈ tr)) :
    WriteRun C rbp src n i rb { rb := rb, outcome := o, trace := tr } := by
  refine ⟨0, by omega, by simp, rfl, rfl, rfl, ?_, by simp, ?_, ?_, ?_⟩
  · simp [Nat.mod_eq_of_lt hok.2]
  · intro j hj; omega
  · intro x _; rfl
  · rcases h with ⟨h1, h2, h3⟩ | ⟨h1, h2, h3, h4⟩
    · left; exact ⟨by simpa using h1, by omega, h3⟩
    · right; exact ⟨by simpa using h1, by omega, h3, h4⟩

theorem WriteRun_commit (C rbp : Nat) (src : Nat → Byte) (n : Int) (i : Nat) (rb : ringbuffer)
    (hok : cursors_ok C rb) (hnf : used C rb.read_pos rb.write_pos ≠ C - 1)
    (hlt : (i : Int) < n) (r : WriteResult) (tr : List Event) (htr : Event.sleep_on rbp ∉ tr)
    (h : WriteRun C rbp src n (i + 1)
      { rb with buffer := Function.update rb.buffer rb.write_pos (src i)
                write_pos := (rb.write_pos + 1) % C } r) :
    WriteRun C rbp src n i rb { rb := r.rb, outcome := r.outcome, trace := tr ++ r.trace } := by
  have hC : 0 < C := by have := hok.1; omega
  have hne : (rb.write_pos + 1) % C ≠ rb.read_pos :=
    fun h => hnf ((full_iff _ _ _ hok.1 hok.2).mp h)
  obtain ⟨k, hk, hu, hrp, hropen, hwopen, hwp, hst, hpt, hfr, hout⟩ := h
  dsimp only at hu hrp hropen hwopen hwp hst hpt hfr hout ⊢
  have hulast : used C r.rb.read_pos r.rb.write_pos < C :=
    used_lt C _ _ (by rw [hrp]; exact hok.1) (by rw [hwp]; exact Nat.mod_lt _ hC)
  rw [used_push _ _ _ hok.1 hok.2 hne] at hu
  have hkC : k + 1 < C := by omega
  have hw0 : ∀ j, j < k → rb.write_pos ≠ ((rb.write_pos + 1) % C + j) % C := by
    intro j hj h
    rw [idx_succ] at h
    exact ring_ne _ _ (j + 1) hok.2 (by omega) (by omega) h.symm
  refine ⟨k + 1, by omega, by dsimp only; omega, hrp, hropen, hwopen, ?_, ?_, ?_, ?_, ?_⟩
  · rw [hwp, idx_succ]
  · rw [hst, stored_push _ rb (src i) hok hnf, List.range_succ_eq_map]
    simp only [List.map_cons, List.map_map, List.append_assoc, List.singleton_append,
      Nat.add_zero]
    congr 2
    apply List.map_congr_left
    intro j _
    simp only [Function.comp]
    congr 1; omega
  · intro j hj
    rcases Nat.eq_zero_or_pos j with h0 | hpos
    · subst h0
      rw [Nat.add_zero, Nat.mod_eq_of_lt hok.2, hfr _ hw0]
      simp
    · obtain ⟨j', rfl⟩ : ∃ j', j = j' + 1 := ⟨j - 1, by omega⟩
      rw [← idx_succ, hpt j' (by omega)]
      congr 1; omega
  · intro x hx
    have hxw : x ≠ rb.write_pos := by
      have := hx 0 (by omega)
      rwa [Nat.add_zero, Nat.mod_eq_of_lt hok.2] at this
    rw [hfr x (fun j hj => by rw [idx_succ]; exact hx (j + 1) (by omega))]
    exact Function.update_noteq hxw _ _
  · rcases hout with ⟨ho, hkeq, hns⟩ | ⟨ho, hklt, hful, hs⟩
    · left
      refine ⟨?_, by omega, ?_⟩
      · rw [ho]; congr 2; omega
      · simp [hns, htr]
    · right
      refine ⟨?_, by omega, hful, ?_⟩
      · rw [ho]; congr 1; omega
      · simp [hs]

theorem write_loop_run (PAGE_SIZE rbp : Nat) (src : Nat → Byte) (n : Int)
    (h32 : RB_DATA_SIZE PAGE_SIZE ≤ 2 ^ 32) :
    ∀ (fuel i : Nat) (rb : ringbuffer), cursors_ok (RB_DATA_SIZE PAGE_SIZE) rb →
      rb.read_open ≠ 0 → (n - i).toNat < fuel →
      WriteRun (RB_DATA_SIZE PAGE_SIZE) rbp src n i rb
        (write_loop PAGE_SIZE rbp src n fuel i rb) := by
  intro fuel
  induction fuel with
  | zero => intro i rb _ _ h; omega
  | succ fuel ih =>
    intro i rb hok hro hfuel
    unfold write_loop
    by_cases hlt : (i : Int) < n
    · rw [if_pos hlt]
      by_cases hfull : used (RB_DATA_SIZE PAGE_SIZE) rb.read_pos rb.write_pos
          = RB_DATA_SIZE PAGE_SIZE - 1
      · rw [write_iter_full PAGE_SIZE rbp rb src i h32 hok hro hfull]
        exact WriteRun_stop _ _ _ _ _ _ hok _ _
          (Or.inr ⟨rfl, by omega, hfull, by simp⟩)
      · rw [write_iter_commit PAGE_SIZE rbp rb src i h32 hok hro hfull]
        have hC : 0 < RB_DATA_SIZE PAGE_SIZE := by have := hok.1; omega
        exact WriteRun_commit _ _ _ _ _ _ hok hfull hlt _ _ (by simp)
          (ih (i + 1) _ ⟨hok.1, adv_lt _ _ hC⟩ hro (by omega))
    · rw [if_neg hlt]
      exact WriteRun_stop _ _ _ _ _ _ hok _ _ (Or.inl ⟨rfl, by omega, by simp⟩)

/-! ## The read loop -/

theorem ReadRun_stop (C rbp : Nat) (n : Int) (i : Nat) (rb : ringbuffer) (dst : Nat → Byte)
    (hok : cursors_ok C rb) (o : Outcome) (tr : List Event)
    (h : (o = Outcome.returned (i : Int) ∧
          ((n - i).toNat = 0 ∨
            (rb.write_open = 0 ∧ used C rb.read_pos rb.write_pos = 0)) ∧
          Event.sleep_on rbp ∉ tr) ∨
      (o = Outcome.blocked i ∧ 0 < (n - i).toNat ∧
        used C rb.read_pos rb.write_pos = 0 ∧ rb.write_open ≠ 0 ∧
        Event.sleep_on rbp ∈ tr)) :
    ReadRun C rbp n i rb dst { rb := rb, dst := dst, outcome := o, trace := tr } := by
  refine ⟨0, by omega, by omega, ?_, by simp, ?_, ?_, ?_⟩
  · simp [Nat.mod_eq_of_lt hok.1]
  · intro j hj; omega
  · intro x _; rfl
  · rcases h with ⟨h1, h2, h3⟩ | ⟨h1, h2, h3, h4, h5⟩
    · left
      refine ⟨by simpa using h1, ?_, h3⟩
      rcases h2 with h2 | ⟨h2, h2'⟩
      · left; omega
      · right; exact ⟨h2, h2'.symm⟩
    · right; exact ⟨by simpa using h1, by omega, h3.symm, h4, h5⟩

theorem ReadRun_consume (C rbp : Nat) (n : Int) (i : Nat) (rb : ringbuffer)
    (dst : Nat → Byte) (hok : cursors_ok C rb) (hne : rb.read_pos ≠ rb.write_pos)
    (hlt : (i : Int) < n) (r : ReadResult) (tr : List Event) (htr : Event.sleep_on rbp ∉ tr)
    (h : ReadRun C rbp n (i + 1) { rb with read_pos := (rb.read_pos + 1) % C }
      (Function.update dst i (rb.buffer rb.read_pos)) r) :
    ReadRun C rbp n i rb dst
      { rb := r.rb, dst := r.dst, outcome := r.outcome, trace := tr ++ r.trace } := by
  obtain ⟨k, hk, hku, hrb, hst, hpt, hfr, hout⟩ := h
  dsimp only at hk hku hrb hst hpt hfr hout ⊢
  have hup := used_pop C _ _ hok.1 hok.2 hne
  have hdi : r.dst i = rb.buffer rb.read_pos := by
    rw [hfr i (Or.inl (by omega))]; simp
  refine ⟨k + 1, by omega, by omega, ?_, ?_, ?_, ?_, ?_⟩
  · rw [hrb, idx_succ]
  · rw [stored_pop C rb hok hne, hst, List.range_succ_eq_map]
    simp only [List.map_cons, List.map_map, List.cons_append, Nat.add_zero, hdi]
    congr 2
    apply List.map_congr_left
    intro j _
    simp only [Function.comp]
    congr 1; omega
  · intro j hj
    rcases Nat.eq_zero_or_pos j with h0 | hpos
    · subst h0
      rw [Nat.add_zero, Nat.add_zero, Nat.mod_eq_of_lt hok.1, hdi]
    · obtain ⟨j', rfl⟩ : ∃ j', j = j' + 1 := ⟨j - 1, by omega⟩
      show r.dst (i + (j' + 1)) = _
      rw [← idx_succ, ← hpt j' (by omega)]
      congr 1; omega
  · intro x hx
    rw [hfr x (by omega)]
    exact Function.update_noteq (by omega) _ _
  · rcases hout with ⟨ho, hkeq, hns⟩ | ⟨ho, hklt, hke, hwo, hs⟩
    · left
      refine ⟨?_, ?_, ?_⟩
      · rw [ho]; congr 2; omega
      · rcases hkeq with hkeq | ⟨hwo, hkeq⟩
        · left; omega
        · right; exact ⟨hwo, by omega⟩
      · simp [hns, htr]
    · right
      refine ⟨?_, by omega, by omega, hwo, ?_⟩
      · rw [ho]; congr 1; omega
      · simp [hs]

theorem read_loop_run (PAGE_SIZE rbp : Nat) (n : Int)
    (h32 : RB_DATA_SIZE PAGE_SIZE ≤ 2 ^ 32) :
    ∀ (fuel i : Nat) (rb : ringbuffer) (dst : Nat → Byte),
      cursors_ok (RB_DATA_SIZE PAGE_SIZE) rb → (n - i).toNat < fuel →
      ReadRun (RB_DATA_SIZE PAGE_SIZE) rbp n i rb dst
        (read_loop PAGE_SIZE rbp n fuel i rb dst) := by
  intro fuel
  induction fuel with
  | zero => intro i rb _ _ h; omega
  | succ fuel ih =>
    intro i rb dst hok hfuel
    unfold read_loop
    by_cases hlt : (i : Int) < n
    · rw [if_pos hlt]
      by_cases he : rb.read_pos = rb.write_pos
      · have hu0 := (used_eq_zero_iff _ _ _ hok.1 hok.2).mpr he
        by_cases hwo : rb.write_open = 0
        · rw [read_iter_eof PAGE_SIZE rbp rb dst i he hwo]
          exact ReadRun_stop _ _ _ _ _ _ hok _ _
            (Or.inl ⟨rfl, Or.inr ⟨hwo, hu0⟩, by simp⟩)
        · rw [read_iter_empty PAGE_SIZE rbp rb dst i he hwo]
          exact ReadRun_stop _ _ _ _ _ _ hok _ _
            (Or.inr ⟨rfl, by omega, hu0, hwo, by simp⟩)
      · rw [read_iter_consume PAGE_SIZE rbp rb dst i h32 hok he]
        have hC : 0 < RB_DATA_SIZE PAGE_SIZE := by have := hok.1; omega
        exact ReadRun_consume _ _ _ _ _ _ hok he hlt _ _ (by simp)
          (ih (i + 1) _ _ ⟨adv_lt _ _ hC, hok.2⟩ (by omega))
    · rw [if_neg hlt]
      exact ReadRun_stop _ _ _ _ _ _ hok _ _ (Or.inl ⟨rfl, Or.inl (by omega), by simp⟩)

/-! ## Whole calls that do not block -/

theorem stored_length (C : Nat) (rb : ringbuffer) :
    (stored C rb).length = used C rb.read_pos rb.write_pos := by
  simp [stored]

theorem bytesOf_range (w : List Byte) :
    (List.range w.length).map (fun j => bytesOf w (0 + j)) = w := by
  apply List.ext_getElem
  · simp
  · intro j h1 h2
    simp [bytesOf, List.getD_eq_getElem?_getD, List.getElem?_eq_getElem h2]

theorem write_call_fits (PAGE_SIZE rbp : Nat) (rb : ringbuffer) (w : List Byte)
    (h32 : RB_DATA_SIZE PAGE_SIZE ≤ 2 ^ 32) (hp : rbp ≠ 0)
    (hok : cursors_ok (RB_DATA_SIZE PAGE_SIZE) rb) (hro : rb.read_open ≠ 0)
    (hfit : used (RB_DATA_SIZE PAGE_SIZE) rb.read_pos rb.write_pos + w.length
      ≤ RB_DATA_SIZE PAGE_SIZE - 1) :
    (ringbuffer_write PAGE_SIZE rbp rb (bytesOf w) w.length).outcome
        = Outcome.returned (w.length : Int) ∧
      Event.sleep_on rbp ∉ (ringbuffer_write PAGE_SIZE rbp rb (bytesOf w) w.length).trace ∧
      stored (RB_DATA_SIZE PAGE_SIZE)
          (ringbuffer_write PAGE_SIZE rbp rb (bytesOf w) w.length).rb
        = stored (RB_DATA_SIZE PAGE_SIZE) rb ++ w ∧
      cursors_ok (RB_DATA_SIZE PAGE_SIZE)
        (ringbuffer_write PAGE_SIZE rbp rb (bytesOf w) w.length).rb ∧
      (ringbuffer_write PAGE_SIZE rbp rb (bytesOf w) w.length).rb.read_open
        = rb.read_open := by
  have hC : 0 < RB_DATA_SIZE PAGE_SIZE := by have := hok.1; omega
  have hrun := write_loop_run PAGE_SIZE rbp (bytesOf w) w.length h32
    (((w.length : Int) - (0 : Nat)).toNat + 1) 0 rb hok hro (by omega)
  have hdef : ringbuffer_write PAGE_SIZE rbp rb (bytesOf w) w.length
      = write_loop PAGE_SIZE rbp (bytesOf w) w.length
          (((w.length : Int) - (0 : Nat)).toNat + 1) 0 rb := by
    simp [ringbuffer_write, write_resume, hp]
  rw [hdef]
  generalize write_loop PAGE_SIZE rbp (bytesOf w) w.length
    (((w.length : Int) - (0 : Nat)).toNat + 1) 0 rb = r at hrun
  obtain ⟨k, hk, hu, hrp, hropen, -, hwp, hst, -, -, hout⟩ := hrun
  have hlen : ((w.length : Int) - (0 : Nat)).toNat = w.length := by simp
  rw [hlen] at hk hout
  rcases hout with ⟨ho, hkeq, hns⟩ | ⟨-, hklt, hful, -⟩
  · subst hkeq
    refine ⟨by simpa using ho, hns, ?_, ⟨by rw [hrp]; exact hok.1, ?_⟩, hropen⟩
    · rw [hst, bytesOf_range]
    · rw [hwp]; exact Nat.mod_lt _ hC
  · omega

theorem read_call_fits (PAGE_SIZE rbp : Nat) (rb : ringbuffer) (dst : Nat → Byte) (n : Nat)
    (h32 : RB_DATA_SIZE PAGE_SIZE ≤ 2 ^ 32) (hp : rbp ≠ 0)
    (hok : cursors_ok (RB_DATA_SIZE PAGE_SIZE) rb)
    (hfit : n ≤ used (RB_DATA_SIZE PAGE_SIZE) rb.read_pos rb.write_pos) :
    (ringbuffer_read PAGE_SIZE rbp rb dst n).outcome = Outcome.returned (n : Int) ∧
      Event.sleep_on rbp ∉ (ringbuffer_read PAGE_SIZE rbp rb dst n).trace ∧
      stored (RB_DATA_SIZE PAGE_SIZE) rb
        = firstBytes (ringbuffer_read PAGE_SIZE rbp rb dst n).dst n
          ++ stored (RB_DATA_SIZE PAGE_SIZE) (ringbuffer_read PAGE_SIZE rbp rb dst n).rb ∧
      cursors_ok (RB_DATA_SIZE PAGE_SIZE) (ringbuffer_read PAGE_SIZE rbp rb dst n).rb := by
  have hC : 0 < RB_DATA_SIZE PAGE_SIZE := by have := hok.1; omega
  have hrun := read_loop_run PAGE_SIZE rbp n h32
    (((n : Int) - (0 : Nat)).toNat + 1) 0 rb dst hok (by omega)
  have hdef : ringbuffer_read PAGE_SIZE rbp rb dst n
      = read_loop PAGE_SIZE rbp n (((n : Int) - (0 : Nat)).toNat + 1) 0 rb dst := by
    simp [ringbuffer_read, read_resume, hp]
  rw [hdef]
  generalize read_loop PAGE_SIZE rbp n (((n : Int) - (0 : Nat)).toNat + 1) 0 rb dst = r
    at hrun
  obtain ⟨k, hk, hku, hrb, hst, -, -, hout⟩ := hrun
  have hlen : ((n : Int) - (0 : Nat)).toNat = n := by simp
  rw [hlen] at hk hout
  have hkn : k = n → r.outcome = Outcome.returned ((0 + k : Nat) : Int) →
      Event.sleep_on rbp ∉ r.trace →
      r.outcome = Outcome.returned (n : Int) ∧ Event.sleep_on rbp ∉ r.trace ∧
        stored (RB_DATA_SIZE PAGE_SIZE) rb
          = firstBytes r.dst n ++ stored (RB_DATA_SIZE PAGE_SIZE) r.rb ∧
        cursors_ok (RB_DATA_SIZE PAGE_SIZE) r.rb := by
    intro hkeq ho hns
    subst hkeq
    refine ⟨by simpa using ho, hns, ?_, ?_⟩
    · rw [hst]; simp [firstBytes]
    · rw [hrb]; exact ⟨Nat.mod_lt _ hC, hok.2⟩
  rcases hout with ⟨ho, hkeq | ⟨-, hkeq⟩, hns⟩ | ⟨-, hklt, hke, -, -⟩
  · exact hkn hkeq ho hns
  · exact hkn (by omega) ho hns
  · omega

theorem write_seq_fits (PAGE_SIZE rbp : Nat) (h32 : RB_DATA_SIZE PAGE_SIZE ≤ 2 ^ 32)
    (hp : rbp ≠ 0) :
    ∀ (ws : List (List Byte)) (rb : ringbuffer),
      cursors_ok (RB_DATA_SIZE PAGE_SIZE) rb → rb.read_open ≠ 0 →
      used (RB_DATA_SIZE PAGE_SIZE) rb.read_pos rb.write_pos + (ws.map List.length).sum
        ≤ RB_DATA_SIZE PAGE_SIZE - 1 →
      (write_seq PAGE_SIZE rbp rb ws).2.map (fun r => r.outcome)
          = ws.map (fun w => Outcome.returned (w.length : Int)) ∧
        (∀ r ∈ (write_seq PAGE_SIZE rbp rb ws).2, Event.sleep_on rbp ∉ r.trace) ∧
        stored (RB_DATA_SIZE PAGE_SIZE) (write_seq PAGE_SIZE rbp rb ws).1
          = stored (RB_DATA_SIZE PAGE_SIZE) rb ++ ws.flatten ∧
        cursors_ok (RB_DATA_SIZE PAGE_SIZE) (write_seq PAGE_SIZE rbp rb ws).1 := by
  intro ws
  induction ws with
  | nil => intro rb hok _ _; simp [write_seq, hok]
  | cons w ws ih =>
    intro rb hok hro hfit
    simp only [List.map_cons, List.sum_cons] at hfit
    obtain ⟨ho, hns, hst, hok1, hro1⟩ :=
      write_call_fits PAGE_SIZE rbp rb w h32 hp hok hro (by omega)
    have hu1 := stored_length (RB_DATA_SIZE PAGE_SIZE)
      (ringbuffer_write PAGE_SIZE rbp rb (bytesOf w) w.length).rb
    rw [hst, List.length_append, stored_length] at hu1
    obtain ⟨iho, ihns, ihst, ihok⟩ :=
      ih (ringbuffer_write PAGE_SIZE rbp rb (bytesOf w) w.length).rb hok1
        (by rw [hro1]; exact hro) (by omega)
    simp only [write_seq, List.map_cons, List.flatten_cons]
    refine ⟨by rw [ho, iho], ?_, by rw [ihst, hst, List.append_assoc], ihok⟩
    intro r hr
    rcases List.mem_cons.mp hr with rfl | hr
    · exact hns
    · exact ihns r hr

theorem read_seq_fits (PAGE_SIZE rbp : Nat) (h32 : RB_DATA_SIZE PAGE_SIZE ≤ 2 ^ 32)
    (hp : rbp ≠ 0) :
    ∀ (ns : List Nat) (rb : ringbuffer) (dst : Nat → Byte),
      cursors_ok (RB_DATA_SIZE PAGE_SIZE) rb →
      ns.sum ≤ used (RB_DATA_SIZE PAGE_SIZE) rb.read_pos rb.write_pos →
      (read_seq PAGE_SIZE rbp rb dst ns).2.map (fun r => r.outcome)
          = ns.map (fun n : Nat => Outcome.returned (n : Int)) ∧
        (∀ r ∈ (read_seq PAGE_SIZE rbp rb dst ns).2, Event.sleep_on rbp ∉ r.trace) ∧
        stored (RB_DATA_SIZE PAGE_SIZE) rb
          = delivered_by (read_seq PAGE_SIZE rbp rb dst ns).2 ns
            ++ stored (RB_DATA_SIZE PAGE_SIZE) (read_seq PAGE_SIZE rbp rb dst ns).1 ∧
        (delivered_by (read_seq PAGE_SIZE rbp rb dst ns).2 ns).length = ns.sum := by
  intro ns
  induction ns with
  | nil => intro rb dst _ _; simp [read_seq, delivered_by]
  | cons n ns ih =>
    intro rb dst hok hfit
    simp only [List.sum_cons] at hfit
    obtain ⟨ho, hns, hst, hok1⟩ :=
      read_call_fits PAGE_SIZE rbp rb dst n h32 hp hok (by omega)
    have hu1 := stored_length (RB_DATA_SIZE PAGE_SIZE) rb
    rw [hst, List.length_append, stored_length] at hu1
    have hfb : (firstBytes (ringbuffer_read PAGE_SIZE rbp rb dst n).dst n).length = n := by
      simp [firstBytes]
    obtain ⟨iho, ihns, ihst, ihlen⟩ :=
      ih (ringbuffer_read PAGE_SIZE rbp rb dst n).rb
        (ringbuffer_read PAGE_SIZE rbp rb dst n).dst hok1 (by omega)
    simp only [read_seq, List.map_cons, delivered_by, List.sum_cons, List.length_append]
    refine ⟨by rw [ho, iho], ?_, by rw [List.append_assoc, ← ihst, ← hst], by omega⟩
    intro r hr
    rcases List.mem_cons.mp hr with rfl | hr
    · exact hns
    · exact ihns r hr

/-! ## C1 -/

/-- C1 (sequential FIFO round trip): on a channel with both flags open and both cursors at
the same position `p < C`, writes of the sources `ws` of total length at most `C - 1` each
return the length of their source without reaching `sleep_on`; reads whose requested
lengths `ns` sum to that total then each return their requested length without reaching
`sleep_on`, and the bytes they deliver, concatenated, are the concatenation of `ws`. -/
theorem fifo_round_trip (PAGE_SIZE rbp : Nat) (rb : ringbuffer) (ws : List (List Byte))
    (ns : List Nat) (dst : Nat → Byte)
    (h32 : RB_DATA_SIZE PAGE_SIZE ≤ 2 ^ 32) (hp : rbp ≠ 0)
    (hro : rb.read_open ≠ 0) (_hwo : rb.write_open ≠ 0)
    (heq : rb.read_pos = rb.write_pos) (hlt : rb.read_pos < RB_DATA_SIZE PAGE_SIZE)
    (hT : (ws.map List.length).sum ≤ RB_DATA_SIZE PAGE_SIZE - 1)
    (hns : ns.sum = (ws.map List.length).sum) :
    (write_seq PAGE_SIZE rbp rb ws).2.map (fun r => r.outcome)
        = ws.map (fun w => Outcome.returned (w.length : Int)) ∧
      (∀ r ∈ (write_seq PAGE_SIZE rbp rb ws).2, Event.sleep_on rbp ∉ r.trace) ∧
      (read_seq PAGE_SIZE rbp (write_seq PAGE_SIZE rbp rb ws).1 dst ns).2.map
          (fun r => r.outcome)
        = ns.map (fun n : Nat => Outcome.returned (n : Int)) ∧
      (∀ r ∈ (read_seq PAGE_SIZE rbp (write_seq PAGE_SIZE rbp rb ws).1 dst ns).2,
          Event.sleep_on rbp ∉ r.trace) ∧
      delivered_by (read_seq PAGE_SIZE rbp (write_seq PAGE_SIZE rbp rb ws).1 dst ns).2 ns
        = ws.flatten := by
  have hok : cursors_ok (RB_DATA_SIZE PAGE_SIZE) rb := ⟨hlt, heq ▸ hlt⟩
  have hu0 : used (RB_DATA_SIZE PAGE_SIZE) rb.read_pos rb.write_pos = 0 :=
    (used_eq_zero_iff _ _ _ hok.1 hok.2).mpr heq
  have hs0 : stored (RB_DATA_SIZE PAGE_SIZE) rb = [] := by
    apply List.eq_nil_of_length_eq_zero
    rw [stored_length, hu0]
  obtain ⟨hwo, hwns, hwst, hwok⟩ :=
    write_seq_fits PAGE_SIZE rbp h32 hp ws rb hok hro (by omega)
  rw [hs0, List.nil_append] at hwst
  have hlen := stored_length (RB_DATA_SIZE PAGE_SIZE) (write_seq PAGE_SIZE rbp rb ws).1
  rw [hwst, List.length_flatten] at hlen
  obtain ⟨hro', hrns, hrst, hrlen⟩ :=
    read_seq_fits PAGE_SIZE rbp h32 hp ns (write_seq PAGE_SIZE rbp rb ws).1 dst hwok
      (by omega)
  refine ⟨hwo, hwns, hro', hrns, ?_⟩
  have hl := congrArg List.length hrst
  rw [hwst, List.length_append, List.length_flatten, hrlen] at hl
  have hnil : stored (RB_DATA_SIZE PAGE_SIZE)
      (read_seq PAGE_SIZE rbp (write_seq PAGE_SIZE rbp rb ws).1 dst ns).1 = [] :=
    List.eq_nil_of_length_eq_zero (by omega)
  rw [hnil, List.append_nil, hwst] at hrst
  exact hrst.symm

/-- Witness of C1 with capacity 8 and both cursors at 6, so that the data wraps around the
end of the array: "ABC" and "DE" are written and read back as 2 + 3 bytes. -/
theorem fifo_round_trip_witness :
    delivered_by
        (read_seq 24 4096
          (write_seq 24 4096
            { buffer := fun _ => 0, read_pos := 6, write_pos := 6, read_open := 1,
              write_open := 1 }
            [[65, 66, 67], [68, 69]]).1
          (fun _ => 0) [2, 3]).2 [2, 3]
      = [65, 66, 67, 68, 69] :=
  (fifo_round_trip 24 4096
    { buffer := fun _ => 0, read_pos := 6, write_pos := 6, read_open := 1, write_open := 1 }
    [[65, 66, 67], [68, 69]] [2, 3] (fun _ => 0)
    (by decide) (by decide) (by decide) (by decide) rfl (by decide) (by decide)
    (by decide)).2.2.2.2

/-! ## C2, C3: interleaved steps -/

theorem stored_flags (C : Nat) (rb : ringbuffer) (ro wo : Nat) :
    stored C { rb with read_open := ro, write_open := wo } = stored C rb := rfl

theorem close_cursors (rbp : Nat) (rb : ringbuffer) (is_writer : Int) :
    (ringbuffer_close rbp rb is_writer).1.buffer = rb.buffer ∧
      (ringbuffer_close rbp rb is_writer).1.read_pos = rb.read_pos ∧
      (ringbuffer_close rbp rb is_writer).1.write_pos = rb.write_pos := by
  by_cases hp : rbp = 0
  · simp [ringbuffer_close, hp]
  · by_cases hw : is_writer = 0
    · by_cases h : rb.write_open = 0 <;> simp [ringbuffer_close, hp, hw, h]
    · by_cases h : rb.read_open = 0 <;> simp [ringbuffer_close, hp, hw, h]

theorem step_inv (PAGE_SIZE rbp : Nat) (h32 : RB_DATA_SIZE PAGE_SIZE ≤ 2 ^ 32) (s : Sys)
    (a : Action) (hok : cursors_ok (RB_DATA_SIZE PAGE_SIZE) s.rb)
    (hfifo : s.committed = s.delivered ++ stored (RB_DATA_SIZE PAGE_SIZE) s.rb) :
    cursors_ok (RB_DATA_SIZE PAGE_SIZE) (s.step PAGE_SIZE rbp a).rb ∧
      (s.step PAGE_SIZE rbp a).committed
        = (s.step PAGE_SIZE rbp a).delivered
          ++ stored (RB_DATA_SIZE PAGE_SIZE) (s.step PAGE_SIZE rbp a).rb := by
  have hC : 0 < RB_DATA_SIZE PAGE_SIZE := by have := hok.1; omega
  cases a with
  | write_byte src i =>
    by_cases hro : s.rb.read_open = 0
    · simp only [Sys.step, write_iter_closed PAGE_SIZE rbp s.rb src i hro]
      exact ⟨hok, hfifo⟩
    · by_cases hfull : used (RB_DATA_SIZE PAGE_SIZE) s.rb.read_pos s.rb.write_pos
          = RB_DATA_SIZE PAGE_SIZE - 1
      · simp only [Sys.step, write_iter_full PAGE_SIZE rbp s.rb src i h32 hok hro hfull]
        exact ⟨hok, hfifo⟩
      · simp only [Sys.step, write_iter_commit PAGE_SIZE rbp s.rb src i h32 hok hro hfull]
        refine ⟨⟨hok.1, adv_lt _ _ hC⟩, ?_⟩
        rw [stored_push _ s.rb (src i) hok hfull, hfifo, List.append_assoc]
  | read_byte dst i =>
    by_cases he : s.rb.read_pos = s.rb.write_pos
    · by_cases hwo : s.rb.write_open = 0
      · simp only [Sys.step, read_iter_eof PAGE_SIZE rbp s.rb dst i he hwo]
        exact ⟨hok, hfifo⟩
      · simp only [Sys.step, read_iter_empty PAGE_SIZE rbp s.rb dst i he hwo]
        exact ⟨hok, hfifo⟩
    · simp only [Sys.step, read_iter_consume PAGE_SIZE rbp s.rb dst i h32 hok he]
      refine ⟨⟨adv_lt _ _ hC, hok.2⟩, ?_⟩
      rw [hfifo, stored_pop _ s.rb hok he]
      simp
  | close is_writer =>
    obtain ⟨hb, hr, hw⟩ := close_cursors rbp s.rb is_writer
    simp only [Sys.step]
    refine ⟨⟨by rw [hr]; exact hok.1, by rw [hw]; exact hok.2⟩, ?_⟩
    rw [hfifo]
    simp only [stored, hb, hr, hw]

theorem reachable_inv (PAGE_SIZE rbp : Nat) (h32 : RB_DATA_SIZE PAGE_SIZE ≤ 2 ^ 32)
    (hC : 0 < RB_DATA_SIZE PAGE_SIZE) (s : Sys) (h : Reachable PAGE_SIZE rbp s) :
    cursors_ok (RB_DATA_SIZE PAGE_SIZE) s.rb ∧
      s.committed = s.delivered ++ stored (RB_DATA_SIZE PAGE_SIZE) s.rb := by
  induction h with
  | init rb hrb =>
    unfold ringbuffer_create at hrb
    split_ifs at hrb
    simp only [Option.some.injEq] at hrb
    subst hrb
    refine ⟨⟨hC, hC⟩, ?_⟩
    simp [stored, used, memzero]
  | step s a _ ih => exact step_inv PAGE_SIZE rbp h32 s a ih.1 ih.2

/-- C2 (interleaved ordering invariant): in every state reachable from a freshly created
channel by any interleaving of writer iterations, reader iterations and closes, the bytes
committed so far are the bytes delivered so far followed by the bytes stored at the indices
`read_pos`, ..., `write_pos - 1` (mod `C`); so what the reader has observed is an initial
segment of what was written, in the same order and without repetition. -/
theorem interleaved_fifo (PAGE_SIZE rbp : Nat) (s : Sys)
    (h32 : RB_DATA_SIZE PAGE_SIZE ≤ 2 ^ 32) (hC : 0 < RB_DATA_SIZE PAGE_SIZE)
    (h : Reachable PAGE_SIZE rbp s) :
    s.committed = s.delivered ++ stored (RB_DATA_SIZE PAGE_SIZE) s.rb ∧
      ∃ rest, s.committed = s.delivered ++ rest :=
  ⟨(reachable_inv PAGE_SIZE rbp h32 hC s h).2,
    ⟨_, (reachable_inv PAGE_SIZE rbp h32 hC s h).2⟩⟩

/-- Witness of C2: a freshly created channel of capacity 8 after one writer iteration
committing the byte 65 and one reader iteration. -/
theorem interleaved_fifo_witness :
    (Sys.step 24 4096
        (Sys.step 24 4096
          { rb := { buffer := fun _ => 0, read_pos := 0, write_pos := 0, read_open := 1,
                    write_open := 1 },
            committed := [], delivered := [] }
          (Action.write_byte (fun _ => 65) 0))
        (Action.read_byte (fun _ => 0) 0)).committed
      = (Sys.step 24 4096
        (Sys.step 24 4096
          { rb := { buffer := fun _ => 0, read_pos := 0, write_pos := 0, read_open := 1,
                    write_open := 1 },
            committed := [], delivered := [] }
          (Action.write_byte (fun _ => 65) 0))
        (Action.read_byte (fun _ => 0) 0)).delivered
        ++ stored (RB_DATA_SIZE 24) (Sys.step 24 4096
        (Sys.step 24 4096
          { rb := { buffer := fun _ => 0, read_pos := 0, write_pos := 0, read_open := 1,
                    write_open := 1 },
            committed := [], delivered := [] }
          (Action.write_byte (fun _ => 65) 0))
        (Action.read_byte (fun _ => 0) 0)).rb :=
  (interleaved_fifo 24 4096 _ (by decide) (by decide)
    (Reachable.step _ _ (Reachable.step _ _ (Reachable.init _ rfl)))).1

/-- C3 (full-by-one): in every state reachable from a freshly created channel by write,
read and close steps, the number of unread bytes (committed minus delivered) is
`(write_pos - read_pos) mod C` and is at most `C - 1`, and a slot a writer iteration
stores into is none of the slots `read_pos`, ..., `write_pos - 1` (mod `C`) that hold unread
bytes. -/
theorem full_by_one (PAGE_SIZE rbp : Nat) (s : Sys)
    (h32 : RB_DATA_SIZE PAGE_SIZE ≤ 2 ^ 32) (hC : 0 < RB_DATA_SIZE PAGE_SIZE)
    (h : Reachable PAGE_SIZE rbp s) :
    s.committed.length
        = s.delivered.length + used (RB_DATA_SIZE PAGE_SIZE) s.rb.read_pos s.rb.write_pos ∧
      used (RB_DATA_SIZE PAGE_SIZE) s.rb.read_pos s.rb.write_pos
        ≤ RB_DATA_SIZE PAGE_SIZE - 1 ∧
      ∀ (src : Nat → Byte) (i idx : Nat),
        Event.store_buffer idx ∈ (write_iter PAGE_SIZE rbp s.rb src i).2.2 →
        ∀ j, j < used (RB_DATA_SIZE PAGE_SIZE) s.rb.read_pos s.rb.write_pos →
          idx ≠ (s.rb.read_pos + j) % RB_DATA_SIZE PAGE_SIZE := by
  obtain ⟨hok, hfifo⟩ := reachable_inv PAGE_SIZE rbp h32 hC s h
  have hu := used_lt _ _ _ hok.1 hok.2
  refine ⟨?_, by omega, ?_⟩
  · rw [hfifo, List.length_append, stored_length]
  · intro src i idx hmem j hj hidx
    have hw : idx = s.rb.write_pos := by
      by_cases hro : s.rb.read_open = 0
      · rw [write_iter_closed PAGE_SIZE rbp s.rb src i hro] at hmem
        simp at hmem
      · by_cases hfull : used (RB_DATA_SIZE PAGE_SIZE) s.rb.read_pos s.rb.write_pos
            = RB_DATA_SIZE PAGE_SIZE - 1
        · rw [write_iter_full PAGE_SIZE rbp s.rb src i h32 hok hro hfull] at hmem
          simp at hmem
        · rw [write_iter_commit PAGE_SIZE rbp s.rb src i h32 hok hro hfull] at hmem
          simpa using hmem
    rw [hw, ← idx_used _ _ _ hok.1 hok.2] at hidx
    have := idx_inj _ _ _ _ hok.1 hu (by omega) hidx
    omega

/-- Witness of C3: a freshly created channel of capacity 8 after one writer iteration. -/
theorem full_by_one_witness :
    used (RB_DATA_SIZE 24)
        (Sys.step 24 4096
          { rb := { buffer := fun _ => 0, read_pos := 0, write_pos := 0, read_open := 1,
                    write_open := 1 },
            committed := [], delivered := [] }
          (Action.write_byte (fun _ => 65) 0)).rb.read_pos
        (Sys.step 24 4096
          { rb := { buffer := fun _ => 0, read_pos := 0, write_pos := 0, read_open := 1,
                    write_open := 1 },
            committed := [], delivered := [] }
          (Action.write_byte (fun _ => 65) 0)).rb.write_pos
      ≤ RB_DATA_SIZE 24 - 1 :=
  (full_by_one 24 4096 _ (by decide) (by decide)
    (Reachable.step _ _ (Reachable.init _ rfl))).2.1

/-! ## C4: writing after the reader has closed -/

theorem write_resume_closed (PAGE_SIZE rbp : Nat) (rb : ringbuffer) (src : Nat → Byte)
    (n : Int) (i : Nat) (hro : rb.read_open = 0) (hlt : (i : Int) < n) :
    write_resume PAGE_SIZE rbp rb src n i
      = { rb := rb, outcome := Outcome.returned (-1),
          trace := [Event.preempt_disable, Event.preempt_enable] } := by
  simp [write_resume, write_loop, hlt, write_iter_closed PAGE_SIZE rbp rb src i hro]

theorem write_resume_done (PAGE_SIZE rbp : Nat) (rb : ringbuffer) (src : Nat → Byte)
    (n : Int) (i : Nat) (hge : ¬ (i : Int) < n) :
    write_resume PAGE_SIZE rbp rb src n i
      = { rb := rb, outcome := Outcome.returned i, trace := [Event.wake_up rbp] } := by
  simp [write_resume, write_loop, hge]

/-- C4, as stated, fails for a requested length of zero: with the reader closed, the call
`ringbuffer_write(rb, src, 0)` returns 0 and not -1. -/
theorem broken_pipe_zero_length :
    (ringbuffer_write 24 4096
        { buffer := fun _ => 0, read_pos := 0, write_pos := 0, read_open := 0,
          write_open := 1 }
        (fun _ => 0) 0).outcome = Outcome.returned 0 ∧
      (ringbuffer_write 24 4096
        { buffer := fun _ => 0, read_pos := 0, write_pos := 0, read_open := 0,
          write_open := 1 }
        (fun _ => 0) 0).outcome ≠ Outcome.returned (-1) := by
  constructor <;> decide

/-- C4, amended (BrokenPipe): with `read_open == 0` and a non-null handle, for every source,
`ringbuffer_write` with a requested length `n >= 1` returns -1 at once (it enters and
leaves the exclusive section, nothing else), and with `n <= 0` it returns 0 after one wake;
in both cases it never reaches `sleep_on` and leaves the channel, hence storage and
`write_pos`, unchanged. -/
theorem broken_pipe (PAGE_SIZE rbp : Nat) (rb : ringbuffer) (src : Nat → Byte) (n : Int)
    (hp : rbp ≠ 0) (hro : rb.read_open = 0) :
    (0 < n →
        (ringbuffer_write PAGE_SIZE rbp rb src n).outcome = Outcome.returned (-1) ∧
        (ringbuffer_write PAGE_SIZE rbp rb src n).trace
          = [Event.preempt_disable, Event.preempt_enable]) ∧
      (n ≤ 0 →
        (ringbuffer_write PAGE_SIZE rbp rb src n).outcome = Outcome.returned 0 ∧
        (ringbuffer_write PAGE_SIZE rbp rb src n).trace = [Event.wake_up rbp]) ∧
      Event.sleep_on rbp ∉ (ringbuffer_write PAGE_SIZE rbp rb src n).trace ∧
      (ringbuffer_write PAGE_SIZE rbp rb src n).rb = rb := by
  have hdef : ringbuffer_write PAGE_SIZE rbp rb src n
      = write_resume PAGE_SIZE rbp rb src n 0 := by simp [ringbuffer_write, hp]
  rw [hdef]
  by_cases hn : ((0 : Nat) : Int) < n
  · rw [write_resume_closed PAGE_SIZE rbp rb src n 0 hro hn]
    refine ⟨fun _ => ⟨rfl, rfl⟩, fun h => ?_, by simp, rfl⟩
    simp at hn; omega
  · rw [write_resume_done PAGE_SIZE rbp rb src n 0 hn]
    refine ⟨fun h => ?_, fun _ => ⟨rfl, rfl⟩, by simp, rfl⟩
    simp at hn; omega

/-- Witness of the amended C4: a write of 3 bytes on a channel whose reader has closed. -/
theorem broken_pipe_witness :
    (ringbuffer_write 24 4096
        { buffer := fun _ => 0, read_pos := 2, write_pos := 5, read_open := 0,
          write_open := 1 }
        (fun _ => 65) 3).rb
      = { buffer := fun _ => 0, read_pos := 2, write_pos := 5, read_open := 0,
          write_open := 1 } :=
  (broken_pipe 24 4096
    { buffer := fun _ => 0, read_pos := 2, write_pos := 5, read_open := 0, write_open := 1 }
    (fun _ => 65) 3 (by decide) rfl).2.2.2

/-! ## C5: reading at end of stream -/

theorem read_resume_eof (PAGE_SIZE rbp : Nat) (rb : ringbuffer) (dst : Nat → Byte)
    (n : Int) (i : Nat) (he : rb.read_pos = rb.write_pos) (hwo : rb.write_open = 0)
    (hlt : (i : Int) < n) :
    read_resume PAGE_SIZE rbp rb dst n i
      = { rb := rb, dst := dst, outcome := Outcome.returned i,
          trace := [Event.preempt_disable, Event.preempt_enable] } := by
  simp [read_resume, read_loop, hlt, read_iter_eof PAGE_SIZE rbp rb dst i he hwo]

theorem read_resume_done (PAGE_SIZE rbp : Nat) (rb : ringbuffer) (dst : Nat → Byte)
    (n : Int) (i : Nat) (hge : ¬ (i : Int) < n) :
    read_resume PAGE_SIZE rbp rb dst n i
      = { rb := rb, dst := dst, outcome := Outcome.returned i,
          trace := [Event.wake_up rbp] } := by
  simp [read_resume, read_loop, hge]

/-- C5 (EOF): with `write_open == 0`, `read_pos == write_pos` and a non-null handle, for
every requested length `ringbuffer_read` returns 0 without reaching `sleep_on`, and leaves
the cursors, the flags and storage (the whole channel) and the caller's buffer unchanged. -/
theorem read_eof (PAGE_SIZE rbp : Nat) (rb : ringbuffer) (dst : Nat → Byte) (n : Int)
    (hp : rbp ≠ 0) (hwo : rb.write_open = 0) (he : rb.read_pos = rb.write_pos) :
    (ringbuffer_read PAGE_SIZE rbp rb dst n).outcome = Outcome.returned 0 ∧
      Event.sleep_on rbp ∉ (ringbuffer_read PAGE_SIZE rbp rb dst n).trace ∧
      (ringbuffer_read PAGE_SIZE rbp rb dst n).rb = rb ∧
      (ringbuffer_read PAGE_SIZE rbp rb dst n).dst = dst := by
  have hdef : ringbuffer_read PAGE_SIZE rbp rb dst n
      = read_resume PAGE_SIZE rbp rb dst n 0 := by simp [ringbuffer_read, hp]
  rw [hdef]
  by_cases hn : ((0 : Nat) : Int) < n
  · rw [read_resume_eof PAGE_SIZE rbp rb dst n 0 he hwo hn]
    exact ⟨rfl, by simp, rfl, rfl⟩
  · rw [read_resume_done PAGE_SIZE rbp rb dst n 0 hn]
    exact ⟨rfl, by simp, rfl, rfl⟩

/-- Witness of C5: a read of 4 bytes on an empty channel whose writer has closed. -/
theorem read_eof_witness :
    (ringbuffer_read 24 4096
        { buffer := fun _ => 0, read_pos := 3, write_pos := 3, read_open := 1,
          write_open := 0 }
        (fun _ => 0) 4).outcome = Outcome.returned 0 :=
  (read_eof 24 4096
    { buffer := fun _ => 0, read_pos := 3, write_pos := 3, read_open := 1, write_open := 0 }
    (fun _ => 0) 4 (by decide) rfl rfl).1

/-! ## C6, C7: closing -/

theorem close_writer (rbp : Nat) (rb : ringbuffer) (w : Int) (hp : rbp ≠ 0) (hw : w ≠ 0) :
    ringbuffer_close rbp rb w
      = ({ rb with write_open := 0 },
          if rb.read_open = 0 then
            [Event.preempt_disable, Event.store_write_open, Event.wake_up rbp,
              Event.free_page rbp, Event.preempt_enable]
          else
            [Event.preempt_disable, Event.store_write_open, Event.wake_up rbp,
              Event.preempt_enable]) := by
  by_cases h : rb.read_open = 0 <;> simp [ringbuffer_close, hp, hw, h]

theorem close_reader (rbp : Nat) (rb : ringbuffer) (hp : rbp ≠ 0) :
    ringbuffer_close rbp rb 0
      = ({ rb with read_open := 0 },
          if rb.write_open = 0 then
            [Event.preempt_disable, Event.store_read_open, Event.wake_up rbp,
              Event.free_page rbp, Event.preempt_enable]
          else
            [Event.preempt_disable, Event.store_read_open, Event.wake_up rbp,
              Event.preempt_enable]) := by
  by_cases h : rb.write_open = 0 <;> simp [ringbuffer_close, hp, h]

theorem frees_close (rbp : Nat) (rb : ringbuffer) (w : Int) :
    (both_closed (ringbuffer_close rbp rb w).1 ∧ rbp ≠ 0 →
        frees rbp (ringbuffer_close rbp rb w).2 = 1) ∧
      (¬ (both_closed (ringbuffer_close rbp rb w).1 ∧ rbp ≠ 0) →
        frees rbp (ringbuffer_close rbp rb w).2 = 0) := by
  by_cases hp : rbp = 0
  · simp [ringbuffer_close, hp, frees]
  · by_cases hw : w = 0
    · subst hw
      rw [close_reader rbp rb hp]
      by_cases h : rb.write_open = 0 <;> simp [both_closed, frees, h, hp]
    · rw [close_writer rbp rb w hp hw]
      by_cases h : rb.read_open = 0 <;> simp [both_closed, frees, h, hp]

theorem frees_append (rbp : Nat) (t1 t2 : List Event) :
    frees rbp (t1 ++ t2) = frees rbp t1 + frees rbp t2 := by
  simp [frees]

/-- C6, as stated, fails: after the reader and the writer have closed, a third close call
releases the page a second time. -/
theorem third_close_releases_again :
    frees 4096
        (close_seq 4096
          { buffer := fun _ => 0, read_pos := 0, write_pos := 0, read_open := 1,
            write_open := 1 }
          [0, 1, 1]).2 = 2 ∧
      ¬ frees 4096
        (close_seq 4096
          { buffer := fun _ => 0, read_pos := 0, write_pos := 0, read_open := 1,
            write_open := 1 }
          [0, 1, 1]).2 ≤ 1 := by
  constructor <;> decide

/-- C6, amended (single free): over every sequence of `ringbuffer_close` calls on one
channel that issues no call once both endpoints are closed (any endpoints, any order, any
repetitions before that), `free_page` is called at most once, and if it is called then
both flags are zero at the end. -/
theorem single_free (rbp : Nat) (ws : List Int) (rb : ringbuffer)
    (h : closes_before_release rbp rb ws) :
    frees rbp (close_seq rbp rb ws).2 ≤ 1 ∧
      (frees rbp (close_seq rbp rb ws).2 = 1 → both_closed (close_seq rbp rb ws).1) := by
  induction ws generalizing rb with
  | nil => simp [close_seq, frees]
  | cons w ws ih =>
    obtain ⟨_, htail⟩ := h
    simp only [close_seq, frees_append]
    obtain ⟨h1, h0⟩ := frees_close rbp rb w
    by_cases hb : both_closed (ringbuffer_close rbp rb w).1 ∧ rbp ≠ 0
    · cases ws with
      | nil =>
        rw [h1 hb]
        simp [close_seq, frees, hb.1]
      | cons w2 ws2 => exact absurd hb.1 htail.1
    · rw [h0 hb, Nat.zero_add]
      exact ih _ htail

/-- Witness of the amended C6: the reader closes twice, then the writer closes. -/
theorem single_free_witness :
    frees 4096
        (close_seq 4096
          { buffer := fun _ => 0, read_pos := 0, write_pos := 0, read_open := 1,
            write_open := 1 }
          [0, 0, 1]).2 ≤ 1 :=
  (single_free 4096 [0, 0, 1]
    { buffer := fun _ => 0, read_pos := 0, write_pos := 0, read_open := 1, write_open := 1 }
    ⟨by simp [both_closed], by simp [both_closed, ringbuffer_close],
      by simp [both_closed, ringbuffer_close], trivial⟩).1

/-- C7 (close state machine): on a non-null handle with both flags open, closing the two
endpoints in either order releases the page exactly once, at the second close and not at
the first; a close releases the page only if both flags are zero after it; and closing the
same endpoint twice while the other one is open releases nothing. -/
theorem close_state_machine (rbp : Nat) (rb : ringbuffer) (w w2 : Int) (hp : rbp ≠ 0)
    (hw : w ≠ 0) (hw2 : w2 ≠ 0) :
    (rb.read_open ≠ 0 → rb.write_open ≠ 0 →
        frees rbp (ringbuffer_close rbp rb 0).2 = 0 ∧
        frees rbp (ringbuffer_close rbp (ringbuffer_close rbp rb 0).1 w).2 = 1 ∧
        frees rbp (close_seq rbp rb [0, w]).2 = 1 ∧
        frees rbp (ringbuffer_close rbp rb w).2 = 0 ∧
        frees rbp (ringbuffer_close rbp (ringbuffer_close rbp rb w).1 0).2 = 1 ∧
        frees rbp (close_seq rbp rb [w, 0]).2 = 1) ∧
      (∀ x : Int, Event.free_page rbp ∈ (ringbuffer_close rbp rb x).2 →
        (ringbuffer_close rbp rb x).1.read_open = 0 ∧
        (ringbuffer_close rbp rb x).1.write_open = 0) ∧
      (rb.write_open ≠ 0 → frees rbp (close_seq rbp rb [0, 0]).2 = 0) ∧
      (rb.read_open ≠ 0 → frees rbp (close_seq rbp rb [w, w2]).2 = 0) := by
  refine ⟨fun hro hwo => ?_, fun x hx => ?_, fun hwo => ?_, fun hro => ?_⟩
  · simp [close_seq, close_reader rbp _ hp, close_writer rbp _ w hp hw, frees, hro, hwo]
  · by_cases hx0 : x = 0
    · subst hx0
      rw [close_reader rbp rb hp] at hx ⊢
      by_cases h : rb.write_open = 0 <;> simp [h] at hx ⊢
    · rw [close_writer rbp rb x hp hx0] at hx ⊢
      by_cases h : rb.read_open = 0 <;> simp [h] at hx ⊢
  · simp [close_seq, close_reader rbp _ hp, frees, hwo]
  · simp [close_seq, close_writer rbp _ w hp hw, close_writer rbp _ w2 hp hw2, frees, hro]

/-- Witness of C7 on a channel with both flags open, the writer closing with
`is_writer = 1`. -/
theorem close_state_machine_witness :
    frees 4096
        (close_seq 4096
          { buffer := fun _ => 0, read_pos := 0, write_pos := 0, read_open := 1,
            write_open := 1 }
          [1, 0]).2 = 1 :=
  ((close_state_machine 4096
    { buffer := fun _ => 0, read_pos := 0, write_pos := 0, read_open := 1, write_open := 1 }
    1 1 (by decide) (by decide) (by decide)).1 (by decide) (by decide)).2.2.2.2.2

/-! ## C8: a write resumed after the reader has closed -/

/-- C8 (lossy mid-call BrokenPipe): a `ringbuffer_write` call suspended in `sleep_on` with
`k >= 1` bytes committed (so `k < n`) and resumed on a channel whose reader has closed
returns -1 and not `k`, without sleeping again and without touching the channel, so that
nothing committed is undone. If the `k` bytes were committed by the run of the call on
`rb0` (cursor-range invariant) that ended in `sleep_on`, and storage and `write_pos` are
as that run left them, then the buffer was full when the call went to sleep, the `k` bytes
are still in storage at the slots following the initial `write_pos`, and `write_pos` is
still the initial one advanced by `k` modulo `C`. -/
theorem lossy_broken_pipe (PAGE_SIZE rbp : Nat) (rb2 : ringbuffer) (src : Nat → Byte)
    (n : Int) (k : Nat) (hp : rbp ≠ 0) (_hk : 1 ≤ k) (hlt : (k : Int) < n)
    (hclosed : rb2.read_open = 0) :
    ((write_resume PAGE_SIZE rbp rb2 src n k).outcome = Outcome.returned (-1) ∧
      (write_resume PAGE_SIZE rbp rb2 src n k).outcome ≠ Outcome.returned (k : Int) ∧
      Event.sleep_on rbp ∉ (write_resume PAGE_SIZE rbp rb2 src n k).trace ∧
      (write_resume PAGE_SIZE rbp rb2 src n k).rb = rb2) ∧
    ∀ rb0 : ringbuffer, RB_DATA_SIZE PAGE_SIZE ≤ 2 ^ 32 →
      cursors_ok (RB_DATA_SIZE PAGE_SIZE) rb0 →
      (ringbuffer_write PAGE_SIZE rbp rb0 src n).outcome = Outcome.blocked k →
      rb2.buffer = (ringbuffer_write PAGE_SIZE rbp rb0 src n).rb.buffer →
      rb2.write_pos = (ringbuffer_write PAGE_SIZE rbp rb0 src n).rb.write_pos →
      used (RB_DATA_SIZE PAGE_SIZE) (ringbuffer_write PAGE_SIZE rbp rb0 src n).rb.read_pos
          (ringbuffer_write PAGE_SIZE rbp rb0 src n).rb.write_pos
          = RB_DATA_SIZE PAGE_SIZE - 1 ∧
        (∀ j, j < k →
          (write_resume PAGE_SIZE rbp rb2 src n k).rb.buffer
            ((rb0.write_pos + j) % RB_DATA_SIZE PAGE_SIZE) = src j) ∧
        (write_resume PAGE_SIZE rbp rb2 src n k).rb.write_pos
          = (rb0.write_pos + k) % RB_DATA_SIZE PAGE_SIZE := by
  rw [write_resume_closed PAGE_SIZE rbp rb2 src n k hclosed hlt]
  refine ⟨⟨rfl, by simp, by simp, rfl⟩, ?_⟩
  intro rb0 h32 hok hblk hbuf hwp
  have hdef : ringbuffer_write PAGE_SIZE rbp rb0 src n
      = write_resume PAGE_SIZE rbp rb0 src n 0 := by simp [ringbuffer_write, hp]
  rw [hdef] at hblk hbuf hwp ⊢
  have hro : rb0.read_open ≠ 0 := by
    intro hro
    by_cases hn : ((0 : Nat) : Int) < n
    · rw [write_resume_closed PAGE_SIZE rbp rb0 src n 0 hro hn] at hblk
      simp at hblk
    · rw [write_resume_done PAGE_SIZE rbp rb0 src n 0 hn] at hblk
      simp at hblk
  have hrun := write_loop_run PAGE_SIZE rbp src n h32 ((n - (0 : Nat)).toNat + 1) 0 rb0
    hok hro (by omega)
  change WriteRun _ _ _ _ _ _ (write_resume PAGE_SIZE rbp rb0 src n 0) at hrun
  generalize write_resume PAGE_SIZE rbp rb0 src n 0 = r at hrun hblk hbuf hwp
  obtain ⟨k', -, -, -, -, -, hwp', -, hpt, -, hout⟩ := hrun
  rcases hout with ⟨ho, -, -⟩ | ⟨ho, -, hful, -⟩
  · rw [ho] at hblk; simp at hblk
  · rw [ho] at hblk
    have hkk : k' = k := by simpa using hblk
    subst hkk
    refine ⟨hful, ?_, ?_⟩
    · intro j hj
      show rb2.buffer _ = _
      rw [hbuf, hpt j hj, Nat.zero_add]
    · show rb2.write_pos = _
      rw [hwp, hwp']

/-- Witness of C8 with capacity 8: six bytes are unread, a write of 3 bytes commits one
and goes to sleep; the reader closes and the call is resumed. The byte is still in slot 0
and `write_pos` is 1. -/
theorem lossy_broken_pipe_witness :
    (write_resume 24 4096
        (ringbuffer_close 4096
          (ringbuffer_write 24 4096
            { buffer := fun _ => 0, read_pos := 2, write_pos := 0, read_open := 1,
              write_open := 1 }
            (fun _ => 65) 3).rb 0).1
        (fun _ => 65) 3 1).rb.write_pos = (0 + 1) % RB_DATA_SIZE 24 :=
  ((lossy_broken_pipe 24 4096
    (ringbuffer_close 4096
      (ringbuffer_write 24 4096
        { buffer := fun _ => 0, read_pos := 2, write_pos := 0, read_open := 1,
          write_open := 1 }
        (fun _ => 65) 3).rb 0).1
    (fun _ => 65) 3 1 (by decide) (by decide) (by decide) (by decide)).2
    { buffer := fun _ => 0, read_pos := 2, write_pos := 0, read_open := 1, write_open := 1 }
    (by decide) (by decide) (by decide) rfl (by decide)).2.2

/-! ## C9: short read at end of stream -/

/-- C9 (short read at end of stream): on a channel satisfying the cursor-range invariant
with `write_open == 0` and `k` unread bytes, for every requested length `n >= 0`,
`ringbuffer_read` returns `min k n` (never a negative value) without reaching `sleep_on`,
the first `min k n` bytes of the destination are the oldest unread bytes in order, and
`read_pos` is advanced by `min k n` modulo `C`, nothing else of the channel changing. -/
theorem short_read_at_eof (PAGE_SIZE rbp : Nat) (rb : ringbuffer) (dst : Nat → Byte)
    (n : Int)
    (h32 : RB_DATA_SIZE PAGE_SIZE ≤ 2 ^ 32) (hp : rbp ≠ 0)
    (hok : cursors_ok (RB_DATA_SIZE PAGE_SIZE) rb) (hwo : rb.write_open = 0)
    (_hn : 0 ≤ n) :
    (ringbuffer_read PAGE_SIZE rbp rb dst n).outcome
        = Outcome.returned
            ((min (used (RB_DATA_SIZE PAGE_SIZE) rb.read_pos rb.write_pos) n.toNat : Nat)
              : Int) ∧
      Event.sleep_on rbp ∉ (ringbuffer_read PAGE_SIZE rbp rb dst n).trace ∧
      firstBytes (ringbuffer_read PAGE_SIZE rbp rb dst n).dst
          (min (used (RB_DATA_SIZE PAGE_SIZE) rb.read_pos rb.write_pos) n.toNat)
        = (stored (RB_DATA_SIZE PAGE_SIZE) rb).take
            (min (used (RB_DATA_SIZE PAGE_SIZE) rb.read_pos rb.write_pos) n.toNat) ∧
      (ringbuffer_read PAGE_SIZE rbp rb dst n).rb
        = { rb with read_pos :=
              (rb.read_pos
                + min (used (RB_DATA_SIZE PAGE_SIZE) rb.read_pos rb.write_pos) n.toNat)
              % RB_DATA_SIZE PAGE_SIZE } := by
  have hrun := read_loop_run PAGE_SIZE rbp n h32 ((n - (0 : Nat)).toNat + 1) 0 rb dst hok
    (by omega)
  have hdef : ringbuffer_read PAGE_SIZE rbp rb dst n
      = read_loop PAGE_SIZE rbp n ((n - (0 : Nat)).toNat + 1) 0 rb dst := by
    simp [ringbuffer_read, read_resume, hp]
  rw [hdef]
  generalize read_loop PAGE_SIZE rbp n ((n - (0 : Nat)).toNat + 1) 0 rb dst = r at hrun
  obtain ⟨k, hk, hku, hrb, hst, -, -, hout⟩ := hrun
  have hlen : (n - ((0 : Nat) : Int)).toNat = n.toNat := by simp
  rw [hlen] at hk hout
  rcases hout with ⟨ho, hkeq, hns⟩ | ⟨-, -, -, hwo', -⟩
  · have hmin : min (used (RB_DATA_SIZE PAGE_SIZE) rb.read_pos rb.write_pos) n.toNat = k := by
      rcases hkeq with hkeq | ⟨-, hkeq⟩ <;> omega
    rw [hmin]
    refine ⟨by simpa using ho, hns, ?_, hrb⟩
    rw [hst]
    simp [firstBytes]
  · exact absurd hwo hwo'

/-- Witness of C9 with capacity 8: two bytes are unread (wrapping around the end of the
array), the writer has closed and 5 bytes are requested. -/
theorem short_read_at_eof_witness :
    (ringbuffer_read 24 4096
        { buffer := fun _ => 7, read_pos := 7, write_pos := 1, read_open := 1,
          write_open := 0 }
        (fun _ => 0) 5).outcome
      = Outcome.returned ((min (used (RB_DATA_SIZE 24) 7 1) (5 : Int).toNat : Nat) : Int) :=
  (short_read_at_eof 24 4096
    { buffer := fun _ => 7, read_pos := 7, write_pos := 1, read_open := 1, write_open := 0 }
    (fun _ => 0) 5 (by decide) (by decide) (by decide) rfl (by decide)).1

/-! ## C10: wake on close -/

theorem read_loop_writer_closed (PAGE_SIZE rbp : Nat) (n : Int) :
    ∀ (fuel i : Nat) (rb : ringbuffer) (dst : Nat → Byte), rb.write_open = 0 →
      (n - i).toNat < fuel →
      ∃ v : Nat, i ≤ v ∧
        (read_loop PAGE_SIZE rbp n fuel i rb dst).outcome = Outcome.returned (v : Int) ∧
        Event.sleep_on rbp ∉ (read_loop PAGE_SIZE rbp n fuel i rb dst).trace := by
  intro fuel
  induction fuel with
  | zero => intro i rb dst _ h; omega
  | succ fuel ih =>
    intro i rb dst hwo hfuel
    unfold read_loop
    by_cases hlt : (i : Int) < n
    · rw [if_pos hlt]
      by_cases he : rb.read_pos = rb.write_pos
      · rw [read_iter_eof PAGE_SIZE rbp rb dst i he hwo]
        exact ⟨i, le_refl _, rfl, by simp⟩
      · obtain ⟨v, hv, ho, hns⟩ := ih (i + 1)
          { rb with read_pos := u32 (u32 (rb.read_pos + 1) % RB_DATA_SIZE PAGE_SIZE) }
          (Function.update dst i (rb.buffer rb.read_pos)) hwo (by omega)
        refine ⟨v, by omega, ?_, ?_⟩
        · simpa [read_iter, he] using ho
        · simpa [read_iter, he] using hns
    · rw [if_neg hlt]
      exact ⟨i, le_refl _, rfl, by simp⟩

/-- C10 (wake on close): on a non-null handle and whatever the channel state,
`ringbuffer_close` clears the flag of its endpoint and then calls `wake_up` on the channel
address, unconditionally. A reader whose iteration for slot `i` went to `sleep_on` (empty
buffer) and that is resumed after `close(Writer)` returns its count `i` without sleeping
again, and on any channel whose writer is closed a resumed read returns without sleeping.
A writer whose iteration for byte `i` went to `sleep_on` (full buffer) and that is resumed
after `close(Reader)` returns -1 without sleeping again, as on any channel whose reader is
closed. -/
theorem wake_on_close (PAGE_SIZE rbp : Nat) (rb : ringbuffer) (hp : rbp ≠ 0) :
    (∀ w : Int, w ≠ 0 →
        (ringbuffer_close rbp rb w).1.write_open = 0 ∧
        ∃ rest, (ringbuffer_close rbp rb w).2
          = [Event.preempt_disable, Event.store_write_open, Event.wake_up rbp] ++ rest) ∧
      ((ringbuffer_close rbp rb 0).1.read_open = 0 ∧
        ∃ rest, (ringbuffer_close rbp rb 0).2
          = [Event.preempt_disable, Event.store_read_open, Event.wake_up rbp] ++ rest) ∧
      (∀ (dst : Nat → Byte) (n : Int) (i : Nat) (w : Int), w ≠ 0 → (i : Int) < n →
        (read_iter PAGE_SIZE rbp rb dst i).2.2.1 = Ctl.sleep →
        (read_resume PAGE_SIZE rbp (ringbuffer_close rbp rb w).1 dst n i).outcome
            = Outcome.returned (i : Int) ∧
          Event.sleep_on rbp
            ∉ (read_resume PAGE_SIZE rbp (ringbuffer_close rbp rb w).1 dst n i).trace) ∧
      (∀ (rb2 : ringbuffer) (dst : Nat → Byte) (n : Int) (i : Nat), rb2.write_open = 0 →
        ∃ v : Nat, i ≤ v ∧
          (read_resume PAGE_SIZE rbp rb2 dst n i).outcome = Outcome.returned (v : Int) ∧
          Event.sleep_on rbp ∉ (read_resume PAGE_SIZE rbp rb2 dst n i).trace) ∧
      (∀ (src : Nat → Byte) (n : Int) (i : Nat), (i : Int) < n →
        (write_iter PAGE_SIZE rbp rb src i).2.1 = Ctl.sleep →
        (write_resume PAGE_SIZE rbp (ringbuffer_close rbp rb 0).1 src n i).outcome
            = Outcome.returned (-1) ∧
          Event.sleep_on rbp
            ∉ (write_resume PAGE_SIZE rbp (ringbuffer_close rbp rb 0).1 src n i).trace) ∧
      (∀ (rb2 : ringbuffer) (src : Nat → Byte) (n : Int) (i : Nat), rb2.read_open = 0 →
        (i : Int) < n →
        (write_resume PAGE_SIZE rbp rb2 src n i).outcome = Outcome.returned (-1) ∧
          Event.sleep_on rbp ∉ (write_resume PAGE_SIZE rbp rb2 src n i).trace) := by
  refine ⟨?_, ?_, ?_, ?_, ?_, ?_⟩
  · intro w hw
    rw [close_writer rbp rb w hp hw]
    refine ⟨rfl, ?_⟩
    by_cases h : rb.read_open = 0 <;> simp [h]
  · rw [close_reader rbp rb hp]
    refine ⟨rfl, ?_⟩
    by_cases h : rb.write_open = 0 <;> simp [h]
  · intro dst n i w hw hlt hsleep
    have he : rb.read_pos = rb.write_pos := by
      by_contra he
      simp [read_iter, he] at hsleep
    rw [close_writer rbp rb w hp hw]
    dsimp only
    rw [read_resume_eof PAGE_SIZE rbp { rb with write_open := 0 } dst n i he rfl hlt]
    exact ⟨rfl, by simp⟩
  · intro rb2 dst n i hwo
    exact read_loop_writer_closed PAGE_SIZE rbp n _ i rb2 dst hwo (by omega)
  · intro src n i hlt _
    rw [close_reader rbp rb hp]
    dsimp only
    rw [write_resume_closed PAGE_SIZE rbp { rb with read_open := 0 } src n i rfl hlt]
    exact ⟨rfl, by simp⟩
  · intro rb2 src n i hro hlt
    rw [write_resume_closed PAGE_SIZE rbp rb2 src n i hro hlt]
    exact ⟨rfl, by simp⟩

/-- Witness of C10 with capacity 8: a reader asleep on an empty channel with 2 of 6 bytes
delivered is resumed after the writer closes. -/
theorem wake_on_close_witness :
    (read_resume 24 4096
        (ringbuffer_close 4096
          { buffer := fun _ => 0, read_pos := 3, write_pos := 3, read_open := 1,
            write_open := 1 } 1).1
        (fun _ => 0) 6 2).outcome = Outcome.returned 2 :=
  ((wake_on_close 24 4096
    { buffer := fun _ => 0, read_pos := 3, write_pos := 3, read_open := 1, write_open := 1 }
    (by decide)).2.2.1 (fun _ => 0) 6 2 1 (by decide) (by decide) (by decide)).1

/-! ## C11: creation -/

/-- C11 (creation): `ringbuffer_create` returns the null handle exactly when the page
allocator returns 0, and then its only action is the call of `get_free_page` (no
`memzero`, no store, no channel); otherwise it returns the page, and the channel has every
storage byte equal to 0, both cursors 0 and both flags 1 (it is empty and both endpoints
are open). -/
theorem create_spec (page PAGE_SIZE : Nat) :
    ((ringbuffer_create page PAGE_SIZE).handle = 0 ↔ page = 0) ∧
      (page = 0 →
        (ringbuffer_create page PAGE_SIZE).mem = none ∧
        (ringbuffer_create page PAGE_SIZE).trace = [Event.get_free_page]) ∧
      (page ≠ 0 →
        (ringbuffer_create page PAGE_SIZE).handle = page ∧
        Event.memzero page PAGE_SIZE ∈ (ringbuffer_create page PAGE_SIZE).trace ∧
        ∃ rb, (ringbuffer_create page PAGE_SIZE).mem = some rb ∧
          (∀ j, rb.buffer j = 0) ∧ rb.read_pos = 0 ∧ rb.write_pos = 0 ∧
          rb.read_open = 1 ∧ rb.write_open = 1 ∧
          rb.read_pos = rb.write_pos ∧ ¬ both_closed rb) := by
  by_cases hp : page = 0
  · subst hp
    simp [ringbuffer_create]
  · refine ⟨by simp [ringbuffer_create, hp], fun h => absurd h hp, fun _ => ?_⟩
    refine ⟨by simp [ringbuffer_create, hp], by simp [ringbuffer_create, hp], ?_⟩
    refine ⟨{ memzero with read_open := 1, write_open := 1 }, by simp [ringbuffer_create, hp],
      ?_⟩
    simp [memzero, both_closed]

/-- Witness of C11: the allocator returns the page at address 4096. -/
theorem create_spec_witness :
    (ringbuffer_create 4096 24).handle = 4096 :=
  ((create_spec 4096 24).2.2 (by decide)).1

/-! ## C12: null handle -/

/-- C12 (null handle): called with a null handle, `ringbuffer_write` and `ringbuffer_read`
return -1 and do nothing else (empty trace: no exclusive section, no wake, no sleep, no
store; memory and the caller's buffer as before), and `ringbuffer_close` does nothing at
all (no wake, no `free_page`). -/
theorem null_handle (PAGE_SIZE : Nat) (rb : ringbuffer) (src dst : Nat → Byte) (n : Int)
    (is_writer : Int) :
    ringbuffer_write PAGE_SIZE 0 rb src n
        = { rb := rb, outcome := Outcome.returned (-1), trace := [] } ∧
      ringbuffer_read PAGE_SIZE 0 rb dst n
        = { rb := rb, dst := dst, outcome := Outcome.returned (-1), trace := [] } ∧
      ringbuffer_close 0 rb is_writer = (rb, []) := by
  refine ⟨?_, ?_, ?_⟩
  · unfold ringbuffer_write
    rw [if_pos rfl]
  · unfold ringbuffer_read
    rw [if_pos rfl]
  · unfold ringbuffer_close
    rw [if_pos rfl]

/-! ## C13: the cursor-range invariant -/

theorem u32_le (x : Nat) : u32 x ≤ x := Nat.mod_le _ _

theorem adv_u32_lt (C pos : Nat) (hC : 0 < C) : u32 (u32 (pos + 1) % C) < C :=
  lt_of_le_of_lt (u32_le _) (Nat.mod_lt _ hC)

theorem write_iter_cursors (PAGE_SIZE rbp : Nat) (rb : ringbuffer) (src : Nat → Byte)
    (i : Nat) (hok : cursors_ok (RB_DATA_SIZE PAGE_SIZE) rb) :
    cursors_ok (RB_DATA_SIZE PAGE_SIZE) (write_iter PAGE_SIZE rbp rb src i).1 ∧
      ∀ idx, Event.store_buffer idx ∈ (write_iter PAGE_SIZE rbp rb src i).2.2 →
        idx < RB_DATA_SIZE PAGE_SIZE := by
  have hC : 0 < RB_DATA_SIZE PAGE_SIZE := by have := hok.1; omega
  unfold write_iter
  by_cases hro : rb.read_open = 0
  · simp [hro, hok]
  · by_cases hf : u32 (u32 (rb.write_pos + 1) % RB_DATA_SIZE PAGE_SIZE) = rb.read_pos
    · simp [hro, hf, hok]
    · simp only [hro, hf, if_false]
      refine ⟨⟨hok.1, adv_u32_lt _ _ hC⟩, ?_⟩
      intro idx hidx
      simp at hidx
      rw [hidx]; exact hok.2

theorem read_iter_cursors (PAGE_SIZE rbp : Nat) (rb : ringbuffer) (dst : Nat → Byte)
    (i : Nat) (hok : cursors_ok (RB_DATA_SIZE PAGE_SIZE) rb) :
    cursors_ok (RB_DATA_SIZE PAGE_SIZE) (read_iter PAGE_SIZE rbp rb dst i).1 := by
  have hC : 0 < RB_DATA_SIZE PAGE_SIZE := by have := hok.1; omega
  unfold read_iter
  by_cases he : rb.read_pos = rb.write_pos
  · by_cases hwo : rb.write_open = 0 <;> simp [he, hwo, hok.2] <;> exact ⟨he ▸ hok.1, hok.2⟩
  · simp only [he, if_false]
    exact ⟨adv_u32_lt _ _ hC, hok.2⟩

theorem close_cursors_ok (C rbp : Nat) (rb : ringbuffer) (is_writer : Int)
    (hok : cursors_ok C rb) : cursors_ok C (ringbuffer_close rbp rb is_writer).1 := by
  obtain ⟨_, hr, hw⟩ := close_cursors rbp rb is_writer
  exact ⟨by rw [hr]; exact hok.1, by rw [hw]; exact hok.2⟩

theorem write_loop_cursors (PAGE_SIZE rbp : Nat) (src : Nat → Byte) (n : Int) :
    ∀ (fuel i : Nat) (rb : ringbuffer), cursors_ok (RB_DATA_SIZE PAGE_SIZE) rb →
      cursors_ok (RB_DATA_SIZE PAGE_SIZE) (write_loop PAGE_SIZE rbp src n fuel i rb).rb ∧
        ∀ idx, Event.store_buffer idx ∈ (write_loop PAGE_SIZE rbp src n fuel i rb).trace →
          idx < RB_DATA_SIZE PAGE_SIZE := by
  intro fuel
  induction fuel with
  | zero => intro i rb hok; simp [write_loop, hok]
  | succ fuel ih =>
    intro i rb hok
    unfold write_loop
    by_cases hlt : (i : Int) < n
    · rw [if_pos hlt]
      obtain ⟨hit, hidx⟩ := write_iter_cursors PAGE_SIZE rbp rb src i hok
      rcases hw : write_iter PAGE_SIZE rbp rb src i with ⟨rb1, c, tr⟩
      rw [hw] at hit hidx
      cases c with
      | ret v => exact ⟨hit, hidx⟩
      | sleep => exact ⟨hit, hidx⟩
      | next =>
        obtain ⟨h1, h2⟩ := ih (i + 1) rb1 hit
        refine ⟨h1, ?_⟩
        intro idx hmem
        rcases List.mem_append.mp hmem with h | h
        · exact hidx idx h
        · exact h2 idx h
    · rw [if_neg hlt]
      simp [hok]

theorem read_loop_cursors (PAGE_SIZE rbp : Nat) (n : Int) :
    ∀ (fuel i : Nat) (rb : ringbuffer) (dst : Nat → Byte),
      cursors_ok (RB_DATA_SIZE PAGE_SIZE) rb →
      cursors_ok (RB_DATA_SIZE PAGE_SIZE) (read_loop PAGE_SIZE rbp n fuel i rb dst).rb := by
  intro fuel
  induction fuel with
  | zero => intro i rb dst hok; simpa [read_loop] using hok
  | succ fuel ih =>
    intro i rb dst hok
    unfold read_loop
    by_cases hlt : (i : Int) < n
    · rw [if_pos hlt]
      have hit := read_iter_cursors PAGE_SIZE rbp rb dst i hok
      rcases hw : read_iter PAGE_SIZE rbp rb dst i with ⟨rb1, dst1, c, tr⟩
      rw [hw] at hit
      cases c with
      | ret v => exact hit
      | sleep => exact hit
      | next => exact ih (i + 1) rb1 dst1 hit
    · rw [if_neg hlt]
      exact hok

theorem step_rb (PAGE_SIZE rbp : Nat) (s : Sys) (a : Action)
    (hok : cursors_ok (RB_DATA_SIZE PAGE_SIZE) s.rb) :
    cursors_ok (RB_DATA_SIZE PAGE_SIZE) (s.step PAGE_SIZE rbp a).rb := by
  cases a with
  | write_byte src i =>
    have hit := (write_iter_cursors PAGE_SIZE rbp s.rb src i hok).1
    rcases hw : write_iter PAGE_SIZE rbp s.rb src i with ⟨rb1, c, tr⟩
    rw [hw] at hit
    cases c <;> simpa [Sys.step, hw] using hit
  | read_byte dst i =>
    have hit := read_iter_cursors PAGE_SIZE rbp s.rb dst i hok
    rcases hw : read_iter PAGE_SIZE rbp s.rb dst i with ⟨rb1, dst1, c, tr⟩
    rw [hw] at hit
    cases c <;> simpa [Sys.step, hw] using hit
  | close is_writer => exact close_cursors_ok _ rbp s.rb is_writer hok

/-- C13 (cursor-range invariant): with `C = RB_DATA_SIZE > 0`, `read_pos < C` and
`write_pos < C` hold for the channel `ringbuffer_create` returns and in every state
reachable from it; the predicate is preserved by every loop iteration and every run of
`ringbuffer_write` and `ringbuffer_read` and by `ringbuffer_close`; hence every slot a
write stores into is below `C`, and the slot a read iteration loads from is `read_pos`,
below `C`. -/
theorem cursor_range (PAGE_SIZE rbp : Nat) (hC : 0 < RB_DATA_SIZE PAGE_SIZE) :
    (∀ page rb, (ringbuffer_create page PAGE_SIZE).mem = some rb →
        cursors_ok (RB_DATA_SIZE PAGE_SIZE) rb) ∧
      (∀ s, Reachable PAGE_SIZE rbp s → cursors_ok (RB_DATA_SIZE PAGE_SIZE) s.rb) ∧
      ∀ rb, cursors_ok (RB_DATA_SIZE PAGE_SIZE) rb →
        (∀ src i, cursors_ok (RB_DATA_SIZE PAGE_SIZE) (write_iter PAGE_SIZE rbp rb src i).1) ∧
        (∀ dst i, cursors_ok (RB_DATA_SIZE PAGE_SIZE) (read_iter PAGE_SIZE rbp rb dst i).1) ∧
        (∀ w, cursors_ok (RB_DATA_SIZE PAGE_SIZE) (ringbuffer_close rbp rb w).1) ∧
        (∀ src n i,
          cursors_ok (RB_DATA_SIZE PAGE_SIZE) (write_resume PAGE_SIZE rbp rb src n i).rb ∧
          ∀ idx, Event.store_buffer idx ∈ (write_resume PAGE_SIZE rbp rb src n i).trace →
            idx < RB_DATA_SIZE PAGE_SIZE) ∧
        (∀ dst n i,
          cursors_ok (RB_DATA_SIZE PAGE_SIZE) (read_resume PAGE_SIZE rbp rb dst n i).rb) ∧
        (∀ src n,
          cursors_ok (RB_DATA_SIZE PAGE_SIZE) (ringbuffer_write PAGE_SIZE rbp rb src n).rb ∧
          ∀ idx, Event.store_buffer idx ∈ (ringbuffer_write PAGE_SIZE rbp rb src n).trace →
            idx < RB_DATA_SIZE PAGE_SIZE) ∧
        (∀ dst n,
          cursors_ok (RB_DATA_SIZE PAGE_SIZE) (ringbuffer_read PAGE_SIZE rbp rb dst n).rb) ∧
        (∀ dst i, (read_iter PAGE_SIZE rbp rb dst i).2.2.1 = Ctl.next →
          (read_iter PAGE_SIZE rbp rb dst i).2.1
              = Function.update dst i (rb.buffer rb.read_pos) ∧
            rb.read_pos < RB_DATA_SIZE PAGE_SIZE) := by
  have hcreate : ∀ page rb, (ringbuffer_create page PAGE_SIZE).mem = some rb →
      cursors_ok (RB_DATA_SIZE PAGE_SIZE) rb := by
    intro page rb hrb
    unfold ringbuffer_create at hrb
    split_ifs at hrb
    simp only [Option.some.injEq] at hrb
    subst hrb
    exact ⟨hC, hC⟩
  refine ⟨hcreate, ?_, ?_⟩
  · intro s hs
    induction hs with
    | init rb hrb => exact hcreate rbp rb hrb
    | step s a _ ih => exact step_rb PAGE_SIZE rbp s a ih
  · intro rb hok
    refine ⟨fun src i => (write_iter_cursors PAGE_SIZE rbp rb src i hok).1,
      fun dst i => read_iter_cursors PAGE_SIZE rbp rb dst i hok,
      fun w => close_cursors_ok _ rbp rb w hok,
      fun src n i => write_loop_cursors PAGE_SIZE rbp src n _ i rb hok,
      fun dst n i => read_loop_cursors PAGE_SIZE rbp n _ i rb dst hok, ?_, ?_, ?_⟩
    · intro src n
      unfold ringbuffer_write
      split_ifs
      · simp [hok]
      · exact write_loop_cursors PAGE_SIZE rbp src n _ 0 rb hok
    · intro dst n
      unfold ringbuffer_read
      split_ifs
      · exact hok
      · exact read_loop_cursors PAGE_SIZE rbp n _ 0 rb dst hok
    · intro dst i hnext
      unfold read_iter at hnext ⊢
      by_cases he : rb.read_pos = rb.write_pos
      · by_cases hwo : rb.write_open = 0 <;> simp [he, hwo] at hnext
      · simp [he, hok.1]

/-- Witness of C13 with capacity 8: a write of 3 bytes on a channel with `write_pos` at
the last slot keeps both cursors below 8. -/
theorem cursor_range_witness :
    cursors_ok (RB_DATA_SIZE 24)
      (ringbuffer_write 24 4096
        { buffer := fun _ => 0, read_pos := 5, write_pos := 7, read_open := 1,
          write_open := 1 }
        (fun _ => 65) 3).rb :=
  (((cursor_range 24 4096 (by decide)).2.2
    { buffer := fun _ => 0, read_pos := 5, write_pos := 7, read_open := 1, write_open := 1 }
    (by decide)).2.2.2.2.2.1 (fun _ => 65) 3).1

/-! ## C14: suspension points -/

theorem write_resume_step (PAGE_SIZE rbp : Nat) (rb : ringbuffer) (src : Nat → Byte)
    (n : Int) (i : Nat) (hlt : (i : Int) < n) :
    write_resume PAGE_SIZE rbp rb src n i
      = match write_iter PAGE_SIZE rbp rb src i with
        | (rb1, Ctl.ret v, tr) => { rb := rb1, outcome := Outcome.returned v, trace := tr }
        | (rb1, Ctl.sleep, tr) => { rb := rb1, outcome := Outcome.blocked i, trace := tr }
        | (rb1, Ctl.next, tr) =>
          { rb := (write_resume PAGE_SIZE rbp rb1 src n (i + 1)).rb
            outcome := (write_resume PAGE_SIZE rbp rb1 src n (i + 1)).outcome
            trace := tr ++ (write_resume PAGE_SIZE rbp rb1 src n (i + 1)).trace } := by
  have hfuel : (n - ((i + 1 : Nat) : Int)).toNat + 1 = (n - (i : Int)).toNat := by omega
  unfold write_resume
  rw [write_loop, if_pos hlt, hfuel]

theorem read_resume_step (PAGE_SIZE rbp : Nat) (rb : ringbuffer) (dst : Nat → Byte)
    (n : Int) (i : Nat) (hlt : (i : Int) < n) :
    read_resume PAGE_SIZE rbp rb dst n i
      = match read_iter PAGE_SIZE rbp rb dst i with
        | (rb1, dst1, Ctl.ret v, tr) =>
          { rb := rb1, dst := dst1, outcome := Outcome.returned v, trace := tr }
        | (rb1, dst1, Ctl.sleep, tr) =>
          { rb := rb1, dst := dst1, outcome := Outcome.blocked i, trace := tr }
        | (rb1, dst1, Ctl.next, tr) =>
          { rb := (read_resume PAGE_SIZE rbp rb1 dst1 n (i + 1)).rb
            dst := (read_resume PAGE_SIZE rbp rb1 dst1 n (i + 1)).dst
            outcome := (read_resume PAGE_SIZE rbp rb1 dst1 n (i + 1)).outcome
            trace := tr ++ (read_resume PAGE_SIZE rbp rb1 dst1 n (i + 1)).trace } := by
  have hfuel : (n - ((i + 1 : Nat) : Int)).toNat + 1 = (n - (i : Int)).toNat := by omega
  unfold read_resume
  rw [read_loop, if_pos hlt, hfuel]

theorem write_iter_sleep_iff (PAGE_SIZE rbp : Nat) (rb : ringbuffer) (src : Nat → Byte)
    (i : Nat) :
    (write_iter PAGE_SIZE rbp rb src i).2.1 = Ctl.sleep ↔
      rb.read_open ≠ 0 ∧
        u32 (u32 (rb.write_pos + 1) % RB_DATA_SIZE PAGE_SIZE) = rb.read_pos := by
  unfold write_iter
  by_cases hro : rb.read_open = 0
  · simp [hro]
  · by_cases hf : u32 (u32 (rb.write_pos + 1) % RB_DATA_SIZE PAGE_SIZE) = rb.read_pos
      <;> simp [hro, hf]

theorem read_iter_sleep_iff (PAGE_SIZE rbp : Nat) (rb : ringbuffer) (dst : Nat → Byte)
    (i : Nat) :
    (read_iter PAGE_SIZE rbp rb dst i).2.2.1 = Ctl.sleep ↔
      rb.read_pos = rb.write_pos ∧ rb.write_open ≠ 0 := by
  unfold read_iter
  by_cases he : rb.read_pos = rb.write_pos
  · by_cases hwo : rb.write_open = 0 <;> simp [he, hwo]
  · simp [he]

theorem write_iter_sleep_eq (PAGE_SIZE rbp : Nat) (rb : ringbuffer) (src : Nat → Byte)
    (i : Nat) (h : (write_iter PAGE_SIZE rbp rb src i).2.1 = Ctl.sleep) :
    write_iter PAGE_SIZE rbp rb src i
      = (rb, Ctl.sleep, [Event.preempt_disable, Event.wake_up rbp, Event.preempt_enable,
          Event.sleep_on rbp]) := by
  obtain ⟨hro, hf⟩ := (write_iter_sleep_iff PAGE_SIZE rbp rb src i).mp h
  simp [write_iter, hro, hf]

theorem read_iter_sleep_eq (PAGE_SIZE rbp : Nat) (rb : ringbuffer) (dst : Nat → Byte)
    (i : Nat) (h : (read_iter PAGE_SIZE rbp rb dst i).2.2.1 = Ctl.sleep) :
    read_iter PAGE_SIZE rbp rb dst i
      = (rb, dst, Ctl.sleep, [Event.preempt_disable, Event.wake_up rbp,
          Event.preempt_enable, Event.sleep_on rbp]) := by
  obtain ⟨he, hwo⟩ := (read_iter_sleep_iff PAGE_SIZE rbp rb dst i).mp h
  simp [read_iter, he, hwo]

/-- C14 (suspension points): in any channel state, the iteration of `ringbuffer_write` for
byte `i` goes to `sleep_on` exactly when `read_open` is set and the successor of
`write_pos` equals `read_pos` (which, for cursors in range, is `(write_pos + 1) mod C ==
read_pos`), and the iteration of `ringbuffer_read` for slot `i` exactly when `read_pos ==
write_pos` and `write_open` is set. In both cases the iteration is `preempt_disable`,
`wake_up`, `preempt_enable`, `sleep_on` and changes neither the channel nor the caller's
buffer; the call (`i < n`) is then suspended with its count still `i`; and a call resumed
with count `i < n`, on whatever state, starts with the iteration for the same `i`. -/
theorem suspension_points (PAGE_SIZE rbp : Nat) (rb : ringbuffer) (n : Int) (i : Nat)
    (src dst : Nat → Byte) :
    ((write_iter PAGE_SIZE rbp rb src i).2.1 = Ctl.sleep ↔
        rb.read_open ≠ 0 ∧
          u32 (u32 (rb.write_pos + 1) % RB_DATA_SIZE PAGE_SIZE) = rb.read_pos) ∧
      (RB_DATA_SIZE PAGE_SIZE ≤ 2 ^ 32 → cursors_ok (RB_DATA_SIZE PAGE_SIZE) rb →
        ((write_iter PAGE_SIZE rbp rb src i).2.1 = Ctl.sleep ↔
          rb.read_open ≠ 0 ∧ (rb.write_pos + 1) % RB_DATA_SIZE PAGE_SIZE = rb.read_pos)) ∧
      ((read_iter PAGE_SIZE rbp rb dst i).2.2.1 = Ctl.sleep ↔
        rb.read_pos = rb.write_pos ∧ rb.write_open ≠ 0) ∧
      ((write_iter PAGE_SIZE rbp rb src i).2.1 = Ctl.sleep →
        write_iter PAGE_SIZE rbp rb src i
            = (rb, Ctl.sleep, [Event.preempt_disable, Event.wake_up rbp,
                Event.preempt_enable, Event.sleep_on rbp]) ∧
          ((i : Int) < n →
            write_resume PAGE_SIZE rbp rb src n i
              = { rb := rb, outcome := Outcome.blocked i,
                  trace := [Event.preempt_disable, Event.wake_up rbp,
                    Event.preempt_enable, Event.sleep_on rbp] })) ∧
      ((read_iter PAGE_SIZE rbp rb dst i).2.2.1 = Ctl.sleep →
        read_iter PAGE_SIZE rbp rb dst i
            = (rb, dst, Ctl.sleep, [Event.preempt_disable, Event.wake_up rbp,
                Event.preempt_enable, Event.sleep_on rbp]) ∧
          ((i : Int) < n →
            read_resume PAGE_SIZE rbp rb dst n i
              = { rb := rb, dst := dst, outcome := Outcome.blocked i,
                  trace := [Event.preempt_disable, Event.wake_up rbp,
                    Event.preempt_enable, Event.sleep_on rbp] })) ∧
      ((i : Int) < n →
        write_resume PAGE_SIZE rbp rb src n i
          = match write_iter PAGE_SIZE rbp rb src i with
            | (rb1, Ctl.ret v, tr) =>
              { rb := rb1, outcome := Outcome.returned v, trace := tr }
            | (rb1, Ctl.sleep, tr) =>
              { rb := rb1, outcome := Outcome.blocked i, trace := tr }
            | (rb1, Ctl.next, tr) =>
              { rb := (write_resume PAGE_SIZE rbp rb1 src n (i + 1)).rb
                outcome := (write_resume PAGE_SIZE rbp rb1 src n (i + 1)).outcome
                trace := tr ++ (write_resume PAGE_SIZE rbp rb1 src n (i + 1)).trace }) ∧
      ((i : Int) < n →
        read_resume PAGE_SIZE rbp rb dst n i
          = match read_iter PAGE_SIZE rbp rb dst i with
            | (rb1, dst1, Ctl.ret v, tr) =>
              { rb := rb1, dst := dst1, outcome := Outcome.returned v, trace := tr }
            | (rb1, dst1, Ctl.sleep, tr) =>
              { rb := rb1, dst := dst1, outcome := Outcome.blocked i, trace := tr }
            | (rb1, dst1, Ctl.next, tr) =>
              { rb := (read_resume PAGE_SIZE rbp rb1 dst1 n (i + 1)).rb
                dst := (read_resume PAGE_SIZE rbp rb1 dst1 n (i + 1)).dst
                outcome := (read_resume PAGE_SIZE rbp rb1 dst1 n (i + 1)).outcome
                trace := tr ++ (read_resume PAGE_SIZE rbp rb1 dst1 n (i + 1)).trace }) := by
  refine ⟨write_iter_sleep_iff PAGE_SIZE rbp rb src i, ?_,
    read_iter_sleep_iff PAGE_SIZE rbp rb dst i, ?_, ?_,
    write_resume_step PAGE_SIZE rbp rb src n i, read_resume_step PAGE_SIZE rbp rb dst n i⟩
  · intro h32 hok
    rw [write_iter_sleep_iff, adv_eq _ _ h32 hok.2]
  · intro h
    have heq := write_iter_sleep_eq PAGE_SIZE rbp rb src i h
    refine ⟨heq, fun hlt => ?_⟩
    rw [write_resume_step PAGE_SIZE rbp rb src n i hlt, heq]
  · intro h
    have heq := read_iter_sleep_eq PAGE_SIZE rbp rb dst i h
    refine ⟨heq, fun hlt => ?_⟩
    rw [read_resume_step PAGE_SIZE rbp rb dst n i hlt, heq]

/-- Witness of C14 with capacity 8: a full channel (`write_pos = 1`, `read_pos = 2`) with
the reader open; a write call with 1 of 3 bytes committed is suspended with count 1. -/
theorem suspension_points_witness :
    write_resume 24 4096
        { buffer := fun _ => 0, read_pos := 2, write_pos := 1, read_open := 1,
          write_open := 1 }
        (fun _ => 65) 3 1
      = { rb := { buffer := fun _ => 0, read_pos := 2, write_pos := 1, read_open := 1,
                  write_open := 1 },
          outcome := Outcome.blocked 1,
          trace := [Event.preempt_disable, Event.wake_up 4096, Event.preempt_enable,
            Event.sleep_on 4096] } :=
  ((suspension_points 24 4096
    { buffer := fun _ => 0, read_pos := 2, write_pos := 1, read_open := 1, write_open := 1 }
    3 1 (fun _ => 65) (fun _ => 0)).2.2.2.1 (by decide)).2 (by decide)

/-! ## C15: frame of each operation -/

theorem write_iter_frame (PAGE_SIZE rbp : Nat) (rb : ringbuffer) (src : Nat → Byte)
    (i : Nat) :
    (write_iter PAGE_SIZE rbp rb src i).1.read_pos = rb.read_pos ∧
      (write_iter PAGE_SIZE rbp rb src i).1.read_open = rb.read_open ∧
      (write_iter PAGE_SIZE rbp rb src i).1.write_open = rb.write_open := by
  unfold write_iter
  by_cases hro : rb.read_open = 0
  · simp [hro]
  · by_cases hf : u32 (u32 (rb.write_pos + 1) % RB_DATA_SIZE PAGE_SIZE) = rb.read_pos
      <;> simp [hro, hf]

theorem read_iter_frame (PAGE_SIZE rbp : Nat) (rb : ringbuffer) (dst : Nat → Byte)
    (i : Nat) :
    (read_iter PAGE_SIZE rbp rb dst i).1.write_pos = rb.write_pos ∧
      (read_iter PAGE_SIZE rbp rb dst i).1.buffer = rb.buffer ∧
      (read_iter PAGE_SIZE rbp rb dst i).1.read_open = rb.read_open ∧
      (read_iter PAGE_SIZE rbp rb dst i).1.write_open = rb.write_open := by
  unfold read_iter
  by_cases he : rb.read_pos = rb.write_pos
  · by_cases hwo : rb.write_open = 0 <;> simp [he, hwo]
  · simp [he]

theorem write_loop_frame (PAGE_SIZE rbp : Nat) (src : Nat → Byte) (n : Int) :
    ∀ (fuel i : Nat) (rb : ringbuffer),
      (write_loop PAGE_SIZE rbp src n fuel i rb).rb.read_pos = rb.read_pos ∧
        (write_loop PAGE_SIZE rbp src n fuel i rb).rb.read_open = rb.read_open ∧
        (write_loop PAGE_SIZE rbp src n fuel i rb).rb.write_open = rb.write_open := by
  intro fuel
  induction fuel with
  | zero => intro i rb; simp [write_loop]
  | succ fuel ih =>
    intro i rb
    unfold write_loop
    by_cases hlt : (i : Int) < n
    · rw [if_pos hlt]
      have hit := write_iter_frame PAGE_SIZE rbp rb src i
      rcases hw : write_iter PAGE_SIZE rbp rb src i with ⟨rb1, c, tr⟩
      rw [hw] at hit
      cases c with
      | ret v => exact hit
      | sleep => exact hit
      | next =>
        obtain ⟨h1, h2, h3⟩ := ih (i + 1) rb1
        exact ⟨h1.trans hit.1, h2.trans hit.2.1, h3.trans hit.2.2⟩
    · rw [if_neg hlt]
      simp

theorem read_loop_frame (PAGE_SIZE rbp : Nat) (n : Int) :
    ∀ (fuel i : Nat) (rb : ringbuffer) (dst : Nat → Byte),
      (read_loop PAGE_SIZE rbp n fuel i rb dst).rb.write_pos = rb.write_pos ∧
        (read_loop PAGE_SIZE rbp n fuel i rb dst).rb.buffer = rb.buffer ∧
        (read_loop PAGE_SIZE rbp n fuel i rb dst).rb.read_open = rb.read_open ∧
        (read_loop PAGE_SIZE rbp n fuel i rb dst).rb.write_open = rb.write_open := by
  intro fuel
  induction fuel with
  | zero => intro i rb dst; simp [read_loop]
  | succ fuel ih =>
    intro i rb dst
    unfold read_loop
    by_cases hlt : (i : Int) < n
    · rw [if_pos hlt]
      have hit := read_iter_frame PAGE_SIZE rbp rb dst i
      rcases hw : read_iter PAGE_SIZE rbp rb dst i with ⟨rb1, dst1, c, tr⟩
      rw [hw] at hit
      cases c with
      | ret v => exact hit
      | sleep => exact hit
      | next =>
        obtain ⟨h1, h2, h3, h4⟩ := ih (i + 1) rb1 dst1
        exact ⟨h1.trans hit.1, h2.trans hit.2.1, h3.trans hit.2.2.1, h4.trans hit.2.2.2⟩
    · rw [if_neg hlt]
      simp

theorem write_iter_paged_eq (PAGE_SIZE rbp : Nat) (rb : ringbuffer) (src : Nat → Byte)
    (i : Nat) (hok : cursors_ok (RB_DATA_SIZE PAGE_SIZE) rb) :
    write_iter_paged PAGE_SIZE rbp rb src i = write_iter PAGE_SIZE rbp rb src i := by
  unfold write_iter_paged write_iter store_buffer_at
  rw [if_pos hok.2]

/-- C15, as stated, fails for a state outside the cursor range: with capacity 8 and
`write_pos = 8`, the iteration of `ringbuffer_write` is not full (`(8 + 1) % 8 = 1` is not
`read_pos = 5`) and stores the byte 3 into `buffer[8]`, which is the first byte of
`read_pos`: the call changes `read_pos` from 5 to 3. -/
theorem write_out_of_range_changes_read_pos :
    (write_iter_paged 24 4096
        { buffer := fun _ => 0, read_pos := 5, write_pos := 8, read_open := 1,
          write_open := 1 }
        (fun _ => 3) 0).2.1 = Ctl.next ∧
      (write_iter_paged 24 4096
        { buffer := fun _ => 0, read_pos := 5, write_pos := 8, read_open := 1,
          write_open := 1 }
        (fun _ => 3) 0).1.read_pos = 3 ∧
      (write_iter_paged 24 4096
        { buffer := fun _ => 0, read_pos := 5, write_pos := 8, read_open := 1,
          write_open := 1 }
        (fun _ => 3) 0).1.read_pos
        ≠ ({ buffer := fun _ => 0, read_pos := 5, write_pos := 8, read_open := 1,
             write_open := 1 } : ringbuffer).read_pos := by
  refine ⟨?_, ?_, ?_⟩ <;> decide

/-- C15, amended (frame of each operation): for every state within the cursor range and
every input, a run of `ringbuffer_write` (from entry or resumed) leaves `read_pos`,
`read_open` and `write_open` as they were, so it changes at most storage and `write_pos`;
for every state, a run of `ringbuffer_read` leaves `write_pos`, storage and both flags as
they were, so it changes at most `read_pos` (and the caller's buffer); on a non-null handle
`ringbuffer_close` with a nonzero `is_writer` sets `write_open` to 0 and with `is_writer ==
0` sets `read_open` to 0, changing nothing else. -/
theorem operation_frame (PAGE_SIZE rbp : Nat) (rb : ringbuffer) (src dst : Nat → Byte)
    (n : Int) (i : Nat) :
    (cursors_ok (RB_DATA_SIZE PAGE_SIZE) rb →
        (ringbuffer_write PAGE_SIZE rbp rb src n).rb.read_pos = rb.read_pos ∧
        (ringbuffer_write PAGE_SIZE rbp rb src n).rb.read_open = rb.read_open ∧
        (ringbuffer_write PAGE_SIZE rbp rb src n).rb.write_open = rb.write_open) ∧
      (cursors_ok (RB_DATA_SIZE PAGE_SIZE) rb →
        (write_resume PAGE_SIZE rbp rb src n i).rb.read_pos = rb.read_pos ∧
        (write_resume PAGE_SIZE rbp rb src n i).rb.read_open = rb.read_open ∧
        (write_resume PAGE_SIZE rbp rb src n i).rb.write_open = rb.write_open) ∧
      ((ringbuffer_read PAGE_SIZE rbp rb dst n).rb.write_pos = rb.write_pos ∧
        (ringbuffer_read PAGE_SIZE rbp rb dst n).rb.buffer = rb.buffer ∧
        (ringbuffer_read PAGE_SIZE rbp rb dst n).rb.read_open = rb.read_open ∧
        (ringbuffer_read PAGE_SIZE rbp rb dst n).rb.write_open = rb.write_open) ∧
      ((read_resume PAGE_SIZE rbp rb dst n i).rb.write_pos = rb.write_pos ∧
        (read_resume PAGE_SIZE rbp rb dst n i).rb.buffer = rb.buffer ∧
        (read_resume PAGE_SIZE rbp rb dst n i).rb.read_open = rb.read_open ∧
        (read_resume PAGE_SIZE rbp rb dst n i).rb.write_open = rb.write_open) ∧
      (rbp ≠ 0 → ∀ w : Int, w ≠ 0 →
        (ringbuffer_close rbp rb w).1 = { rb with write_open := 0 }) ∧
      (rbp ≠ 0 → (ringbuffer_close rbp rb 0).1 = { rb with read_open := 0 }) := by
  refine ⟨fun _ => ?_, fun _ => write_loop_frame PAGE_SIZE rbp src n _ i rb, ?_,
    read_loop_frame PAGE_SIZE rbp n _ i rb dst, ?_, ?_⟩
  · unfold ringbuffer_write
    split_ifs
    · simp
    · exact write_loop_frame PAGE_SIZE rbp src n _ 0 rb
  · unfold ringbuffer_read
    split_ifs
    · simp
    · exact read_loop_frame PAGE_SIZE rbp n _ 0 rb dst
  · intro hp w hw
    rw [close_writer rbp rb w hp hw]
  · intro hp
    rw [close_reader rbp rb hp]

/-- Witness of the amended C15 with capacity 8: a write of 3 bytes on a channel within the
cursor range, `write_pos` at the last slot, leaves `read_pos` at 5. -/
theorem operation_frame_witness :
    (ringbuffer_write 24 4096
        { buffer := fun _ => 7, read_pos := 5, write_pos := 7, read_open := 1,
          write_open := 1 }
        (fun _ => 65) 3).rb.read_pos
      = ({ buffer := fun _ => 7, read_pos := 5, write_pos := 7, read_open := 1,
           write_open := 1 } : ringbuffer).read_pos :=
  ((operation_frame 24 4096
    { buffer := fun _ => 7, read_pos := 5, write_pos := 7, read_open := 1, write_open := 1 }
    (fun _ => 65) (fun _ => 0) 3 0).1 (by decide)).1

/-! ## C16: exclusive-section discipline -/

theorem section_run_append (t1 t2 : List Event) :
    ∀ b : Bool, section_run b (t1 ++ t2)
      = match section_run b t1 with
        | none => none
        | some b2 => section_run b2 t2 := by
  induction t1 with
  | nil => intro b; rfl
  | cons e es ih =>
    intro b
    simp only [List.cons_append, section_run]
    cases section_step b e with
    | none => rfl
    | some b2 => exact ih b2

theorem disciplined_append (t1 t2 : List Event) (h1 : disciplined t1)
    (h2 : disciplined t2) : disciplined (t1 ++ t2) := by
  unfold disciplined at *
  rw [section_run_append, h1]
  exact h2

theorem write_iter_disciplined (PAGE_SIZE rbp : Nat) (rb : ringbuffer) (src : Nat → Byte)
    (i : Nat) : disciplined (write_iter PAGE_SIZE rbp rb src i).2.2 := by
  unfold write_iter
  by_cases hro : rb.read_open = 0
  · simp [hro, disciplined, section_run, section_step]
  · by_cases hf : u32 (u32 (rb.write_pos + 1) % RB_DATA_SIZE PAGE_SIZE) = rb.read_pos
      <;> simp [hro, hf, disciplined, section_run, section_step]

theorem read_iter_disciplined (PAGE_SIZE rbp : Nat) (rb : ringbuffer) (dst : Nat → Byte)
    (i : Nat) : disciplined (read_iter PAGE_SIZE rbp rb dst i).2.2.2 := by
  unfold read_iter
  by_cases he : rb.read_pos = rb.write_pos
  · by_cases hwo : rb.write_open = 0
      <;> simp [he, hwo, disciplined, section_run, section_step]
  · simp [he, disciplined, section_run, section_step]

theorem write_loop_disciplined (PAGE_SIZE rbp : Nat) (src : Nat → Byte) (n : Int) :
    ∀ (fuel i : Nat) (rb : ringbuffer),
      disciplined (write_loop PAGE_SIZE rbp src n fuel i rb).trace := by
  intro fuel
  induction fuel with
  | zero => intro i rb; simp [write_loop, disciplined, section_run]
  | succ fuel ih =>
    intro i rb
    unfold write_loop
    by_cases hlt : (i : Int) < n
    · rw [if_pos hlt]
      have hit := write_iter_disciplined PAGE_SIZE rbp rb src i
      rcases hw : write_iter PAGE_SIZE rbp rb src i with ⟨rb1, c, tr⟩
      rw [hw] at hit
      cases c with
      | ret v => exact hit
      | sleep => exact hit
      | next => exact disciplined_append _ _ hit (ih (i + 1) rb1)
    · rw [if_neg hlt]
      simp [disciplined, section_run, section_step]

theorem read_loop_disciplined (PAGE_SIZE rbp : Nat) (n : Int) :
    ∀ (fuel i : Nat) (rb : ringbuffer) (dst : Nat → Byte),
      disciplined (read_loop PAGE_SIZE rbp n fuel i rb dst).trace := by
  intro fuel
  induction fuel with
  | zero => intro i rb dst; simp [read_loop, disciplined, section_run]
  | succ fuel ih =>
    intro i rb dst
    unfold read_loop
    by_cases hlt : (i : Int) < n
    · rw [if_pos hlt]
      have hit := read_iter_disciplined PAGE_SIZE rbp rb dst i
      rcases hw : read_iter PAGE_SIZE rbp rb dst i with ⟨rb1, dst1, c, tr⟩
      rw [hw] at hit
      cases c with
      | ret v => exact hit
      | sleep => exact hit
      | next => exact disciplined_append _ _ hit (ih (i + 1) rb1 dst1)
    · rw [if_neg hlt]
      simp [disciplined, section_run, section_step]

theorem close_disciplined (rbp : Nat) (rb : ringbuffer) (is_writer : Int) :
    disciplined (ringbuffer_close rbp rb is_writer).2 := by
  by_cases hp : rbp = 0
  · simp [ringbuffer_close, hp, disciplined, section_run]
  · by_cases hw : is_writer = 0
    · subst hw
      rw [close_reader rbp rb hp]
      by_cases h : rb.write_open = 0 <;> simp [h, disciplined, section_run, section_step]
    · rw [close_writer rbp rb is_writer hp hw]
      by_cases h : rb.read_open = 0 <;> simp [h, disciplined, section_run, section_step]

/-- C16 (exclusive-section discipline): the trace of every run of `ringbuffer_write` and
of `ringbuffer_read` (from entry or resumed, whether it returns -1, a count, or ends in
`sleep_on`) and of every `ringbuffer_close` is disciplined: `preempt_disable` occurs only
with the section released and `preempt_enable` only with it held, so that they alternate
and the section is released at the end; every store to storage, a cursor or a flag occurs
with the section held; `sleep_on` occurs only with the section released. The traces of
successive runs compose, so the same holds along a whole execution of a write call through
any number of suspensions. -/
theorem exclusive_section (PAGE_SIZE rbp : Nat) (rb : ringbuffer) (src dst : Nat → Byte)
    (n : Int) (i : Nat) (is_writer : Int) :
    disciplined (ringbuffer_write PAGE_SIZE rbp rb src n).trace ∧
      disciplined (write_resume PAGE_SIZE rbp rb src n i).trace ∧
      disciplined (ringbuffer_read PAGE_SIZE rbp rb dst n).trace ∧
      disciplined (read_resume PAGE_SIZE rbp rb dst n i).trace ∧
      disciplined (ringbuffer_close rbp rb is_writer).2 ∧
      (∀ t1 t2, disciplined t1 → disciplined t2 → disciplined (t1 ++ t2)) ∧
      (∀ v log tr, WriteCall PAGE_SIZE rbp src n i rb v log tr → disciplined tr) := by
  refine ⟨?_, write_loop_disciplined PAGE_SIZE rbp src n _ i rb, ?_,
    read_loop_disciplined PAGE_SIZE rbp n _ i rb dst, close_disciplined rbp rb is_writer,
    disciplined_append, ?_⟩
  · unfold ringbuffer_write
    split_ifs
    · simp [disciplined, section_run]
    · exact write_loop_disciplined PAGE_SIZE rbp src n _ 0 rb
  · unfold ringbuffer_read
    split_ifs
    · simp [disciplined, section_run]
    · exact read_loop_disciplined PAGE_SIZE rbp n _ 0 rb dst
  · intro v log tr h
    induction h with
    | returns i rb v _ => exact write_loop_disciplined PAGE_SIZE rbp src n _ i rb
    | resumed i j rb rb2 v log tr _ _ _ ih =>
      exact disciplined_append _ _ (write_loop_disciplined PAGE_SIZE rbp src n _ i rb) ih

/-- Witness of C16: the trace of an iteration that goes to sleep followed by the trace of
a close that releases the page. -/
theorem exclusive_section_witness :
    disciplined
      ([Event.preempt_disable, Event.wake_up 4096, Event.preempt_enable,
          Event.sleep_on 4096]
        ++ [Event.preempt_disable, Event.store_write_open, Event.wake_up 4096,
          Event.free_page 4096, Event.preempt_enable]) :=
  (exclusive_section 24 4096
    { buffer := fun _ => 0, read_pos := 0, write_pos := 0, read_open := 1, write_open := 1 }
    (fun _ => 0) (fun _ => 0) 0 0 0).2.2.2.2.2.1 _ _ (by decide) (by decide)

/-- The discipline is a real constraint: the trace of `ringbuffer_create`, which sets the
flags of the fresh channel outside any section, does not satisfy it. -/
theorem create_not_disciplined : ¬ disciplined (ringbuffer_create 4096 24).trace := by
  decide

/-! ## C17: no short writes -/

end RingBuffer

namespace Net

/-! ## C18: bounded polling in `usb_core_reset` -/

theorem countdown (timeout : Nat) (h1 : 1 ≤ timeout) (h32 : timeout < 2 ^ 32) :
    u32_dec timeout = timeout - 1 := by
  unfold u32_dec
  omega

theorem poll_loop_spec (cond : Nat → Bool) (msg : UsbEvent) (reads : Nat → Nat) :
    ∀ (fuel timeout k : Nat), 1 ≤ timeout → timeout ≤ fuel → timeout < 2 ^ 32 →
      ((∀ j, j < timeout → cond (reads (k + j)) = true) →
        (poll_loop cond msg reads fuel timeout k).1 = LoopEnd.timed_out) ∧
      (∀ m, m < timeout → (∀ j, j < m → cond (reads (k + j)) = true) →
        cond (reads (k + m)) = false →
        (poll_loop cond msg reads fuel timeout k).1 = LoopEnd.exited (k + m + 1)) := by
  intro fuel
  induction fuel with
  | zero => intro timeout k h1 h2; omega
  | succ fuel ih =>
    intro timeout k h1 hfuel h32
    unfold poll_loop
    rw [countdown timeout h1 h32]
    by_cases hc : cond (reads k) = true
    · rw [if_pos hc]
      by_cases ht : timeout - 1 = 0
      · rw [if_pos ht]
        refine ⟨fun _ => rfl, fun m hm _ hcm => ?_⟩
        have hm0 : m = 0 := by omega
        subst hm0
        rw [Nat.add_zero, hc] at hcm
        exact absurd hcm (by decide)
      · rw [if_neg ht]
        obtain ⟨iha, ihb⟩ := ih (timeout - 1) (k + 1) (by omega) (by omega) (by omega)
        refine ⟨fun hall => ?_, fun m hm hbefore hcm => ?_⟩
        · apply iha
          intro j hj
          have := hall (j + 1) (by omega)
          rwa [show k + (j + 1) = k + 1 + j by omega] at this
        · have hmpos : 0 < m := by
            rcases Nat.eq_zero_or_pos m with h0 | h0
            · subst h0
              rw [Nat.add_zero, hc] at hcm
              exact absurd hcm (by decide)
            · exact h0
          have := ihb (m - 1) (by omega)
            (fun j hj => by
              have := hbefore (j + 1) (by omega)
              rwa [show k + (j + 1) = k + 1 + j by omega] at this)
            (by rwa [show k + 1 + (m - 1) = k + m by omega])
          show (poll_loop cond msg reads fuel (timeout - 1) (k + 1)).1 = _
          rw [this]
          congr 1; omega
    · rw [if_neg hc]
      refine ⟨fun hall => ?_, fun m _ hbefore _ => ?_⟩
      · have := hall 0 (by omega)
        rw [Nat.add_zero] at this
        exact absurd this hc
      · rcases Nat.eq_zero_or_pos m with h0 | h0
        · subst h0; rfl
        · have := hbefore 0 h0
          rw [Nat.add_zero] at this
          exact absurd this hc

theorem poll_loop_total (cond : Nat → Bool) (msg : UsbEvent) (reads : Nat → Nat) :
    ∀ (fuel timeout k : Nat), 1 ≤ timeout → timeout ≤ fuel → timeout < 2 ^ 32 →
      (poll_loop cond msg reads fuel timeout k).1 ≠ LoopEnd.out_of_fuel := by
  intro fuel
  induction fuel with
  | zero => intro timeout k h1 h2; omega
  | succ fuel ih =>
    intro timeout k h1 hfuel h32
    unfold poll_loop
    rw [countdown timeout h1 h32]
    by_cases hc : cond (reads k) = true
    · rw [if_pos hc]
      by_cases ht : timeout - 1 = 0
      · rw [if_pos ht]; simp
      · rw [if_neg ht]
        exact ih (timeout - 1) (k + 1) (by omega) (by omega) (by omega)
    · rw [if_neg hc]; simp

theorem poll_step_reads_only (cond : Nat → Bool) (msg : UsbEvent) (reads : Nat → Nat)
    (hmsg : ∀ r v, msg ≠ UsbEvent.usb_write r v) (k r v t1 : Nat) (e : LoopEnd)
    (rest : List UsbEvent) (hrec : UsbEvent.usb_write r v ∉ rest) :
    UsbEvent.usb_write r v ∉
      (if cond (reads k) = true then
        if t1 = 0 then (LoopEnd.timed_out, [UsbEvent.usb_read USB_GRSTCTL, msg])
        else (e, [UsbEvent.usb_read USB_GRSTCTL, UsbEvent.delay 10] ++ rest)
      else (LoopEnd.exited (k + 1), [UsbEvent.usb_read USB_GRSTCTL])).2 := by
  by_cases hc : cond (reads k) = true
  · rw [if_pos hc]
    by_cases ht : t1 = 0
    · rw [if_pos ht]
      intro hmem
      rcases List.mem_cons.mp hmem with h | h
      · exact UsbEvent.noConfusion h
      · rcases List.mem_cons.mp h with h | h
        · exact hmsg r v h.symm
        · exact List.not_mem_nil _ h
    · rw [if_neg ht]
      intro hmem
      rcases List.mem_append.mp hmem with h | h
      · rcases List.mem_cons.mp h with h | h
        · exact UsbEvent.noConfusion h
        · rcases List.mem_cons.mp h with h | h
          · exact UsbEvent.noConfusion h
          · exact List.not_mem_nil _ h
      · exact hrec h
  · rw [if_neg hc]
    intro hmem
    rcases List.mem_cons.mp hmem with h | h
    · exact UsbEvent.noConfusion h
    · exact List.not_mem_nil _ h

theorem poll_loop_reads_only (cond : Nat → Bool) (msg : UsbEvent) (reads : Nat → Nat)
    (hmsg : ∀ r v, msg ≠ UsbEvent.usb_write r v) :
    ∀ (fuel timeout k : Nat) (r v : Nat),
      UsbEvent.usb_write r v ∉ (poll_loop cond msg reads fuel timeout k).2 := by
  intro fuel
  induction fuel with
  | zero =>
    intro timeout k r v
    unfold poll_loop
    exact List.not_mem_nil _
  | succ fuel ih =>
    intro timeout k r v
    unfold poll_loop
    exact poll_step_reads_only cond msg reads hmsg k r v (u32_dec timeout) _ _
      (ih (u32_dec timeout) (k + 1) r v)

theorem usb_core_reset_ahb_timeout (reads : Nat → Nat) (tr : List UsbEvent)
    (h : poll_loop ahb_busy UsbEvent.printf_ahb_timeout reads 10000 10000 0
      = (LoopEnd.timed_out, tr)) :
    usb_core_reset reads = { ret := some (-1), trace := tr } := by
  unfold usb_core_reset
  rw [h]

theorem usb_core_reset_reset_timeout (reads : Nat → Nat) (k : Nat) (tr tr2 : List UsbEvent)
    (h1 : poll_loop ahb_busy UsbEvent.printf_ahb_timeout reads 10000 10000 0
      = (LoopEnd.exited k, tr))
    (h2 : poll_loop reset_pending UsbEvent.printf_reset_timeout reads 10000 10000 k
      = (LoopEnd.timed_out, tr2)) :
    usb_core_reset reads
      = { ret := some (-1)
          trace := tr ++ [UsbEvent.usb_write USB_GRSTCTL USB_GRSTCTL_CSFTRST] ++ tr2 } := by
  unfold usb_core_reset
  rw [h1]
  dsimp only
  rw [h2]

theorem usb_core_reset_done (reads : Nat → Nat) (k k2 : Nat) (tr tr2 : List UsbEvent)
    (h1 : poll_loop ahb_busy UsbEvent.printf_ahb_timeout reads 10000 10000 0
      = (LoopEnd.exited k, tr))
    (h2 : poll_loop reset_pending UsbEvent.printf_reset_timeout reads 10000 10000 k
      = (LoopEnd.exited k2, tr2)) :
    usb_core_reset reads
      = { ret := some 0
          trace := tr ++ [UsbEvent.usb_write USB_GRSTCTL USB_GRSTCTL_CSFTRST] ++ tr2
            ++ [UsbEvent.delay 1000] } := by
  unfold usb_core_reset
  rw [h1]
  dsimp only
  rw [h2]

theorem ahb_busy_iff (v : Nat) : ahb_busy v = !v.testBit 31 := by
  have h : (v &&& USB_GRSTCTL_AHBIDLE).testBit 31 = v.testBit 31 := by
    rw [Nat.testBit_and, USB_GRSTCTL_AHBIDLE, Nat.testBit_two_pow_self, Bool.and_true]
  unfold ahb_busy
  cases hb : v.testBit 31
  · have hz : v &&& USB_GRSTCTL_AHBIDLE = 0 := by
      apply Nat.eq_of_testBit_eq
      intro i
      rw [Nat.testBit_and, USB_GRSTCTL_AHBIDLE, Nat.testBit_two_pow, Nat.zero_testBit]
      by_cases hi : 31 = i
      · subst hi; rw [hb]; rfl
      · simp [hi]
    simp [hz]
  · rw [hb] at h
    have hne : v &&& USB_GRSTCTL_AHBIDLE ≠ 0 := by
      intro hz
      rw [hz, Nat.zero_testBit] at h
      exact Bool.noConfusion h
    simp [hne]

theorem reset_pending_iff (v : Nat) : reset_pending v = v.testBit 0 := by
  unfold reset_pending USB_GRSTCTL_CSFTRST
  rw [Nat.testBit_zero]
  have h2 : v % 2 = 0 ∨ v % 2 = 1 := by omega
  rcases h2 with h | h <;> simp [h]

theorem busy_of_clear (v : Nat) (h : v.testBit 31 = false) : ahb_busy v = true := by
  rw [ahb_busy_iff, h]; rfl

theorem idle_of_set (v : Nat) (h : v.testBit 31 = true) : ahb_busy v = false := by
  rw [ahb_busy_iff, h]; rfl

/-- C18 (bounded polling in `usb_core_reset`): whatever the reads of the reset register
return, `usb_core_reset` returns, with -1 or 0. If bit 31 (AHB idle) is clear on each of
the first 10000 reads it returns -1 and never writes the register. If bit 31 is first set
on read number `k0 < 10000`, the soft-reset bit is written; then if bit 0 (`CSFTRST`) is
set on each of the next 10000 reads it returns -1, and if bit 0 is first clear on one of
those reads it returns 0. -/
theorem usb_core_reset_bounded (reads : Nat → Nat) :
    ((usb_core_reset reads).ret = some (-1) ∨ (usb_core_reset reads).ret = some 0) ∧
      ((∀ j, j < 10000 → (reads j).testBit 31 = false) →
        (usb_core_reset reads).ret = some (-1) ∧
        ∀ r v, UsbEvent.usb_write r v ∉ (usb_core_reset reads).trace) ∧
      (∀ k0, k0 < 10000 → (∀ j, j < k0 → (reads j).testBit 31 = false) →
        (reads k0).testBit 31 = true →
        UsbEvent.usb_write USB_GRSTCTL USB_GRSTCTL_CSFTRST ∈ (usb_core_reset reads).trace ∧
        ((∀ j, j < 10000 → (reads (k0 + 1 + j)).testBit 0 = true) →
          (usb_core_reset reads).ret = some (-1)) ∧
        (∀ k1, k1 < 10000 → (∀ j, j < k1 → (reads (k0 + 1 + j)).testBit 0 = true) →
          (reads (k0 + 1 + k1)).testBit 0 = false →
          (usb_core_reset reads).ret = some 0)) := by
  have hspec1 := poll_loop_spec ahb_busy UsbEvent.printf_ahb_timeout reads 10000 10000 0
    (by decide) (by decide) (by decide)
  have htot1 := poll_loop_total ahb_busy UsbEvent.printf_ahb_timeout reads 10000 10000 0
    (by decide) (by decide) (by decide)
  have hro1 := poll_loop_reads_only ahb_busy UsbEvent.printf_ahb_timeout reads
    (fun r v h => UsbEvent.noConfusion h) 10000 10000 0
  simp only [Nat.zero_add] at hspec1
  rcases h1 : poll_loop ahb_busy UsbEvent.printf_ahb_timeout reads 10000 10000 0
    with ⟨e1, tr1⟩
  rw [h1] at hspec1 htot1 hro1
  dsimp only at hspec1 htot1 hro1
  cases e1 with
  | out_of_fuel => exact absurd rfl htot1
  | timed_out =>
    rw [usb_core_reset_ahb_timeout reads tr1 h1]
    refine ⟨Or.inl rfl, fun _ => ⟨rfl, hro1⟩, fun k0 hk0 hbefore hidle => ?_⟩
    exact LoopEnd.noConfusion
      (hspec1.2 k0 hk0 (fun j hj => busy_of_clear _ (hbefore j hj)) (idle_of_set _ hidle))
  | exited k =>
    have hspec2 := poll_loop_spec reset_pending UsbEvent.printf_reset_timeout reads
      10000 10000 k (by decide) (by decide) (by decide)
    have htot2 := poll_loop_total reset_pending UsbEvent.printf_reset_timeout reads
      10000 10000 k (by decide) (by decide) (by decide)
    rcases h2 : poll_loop reset_pending UsbEvent.printf_reset_timeout reads 10000 10000 k
      with ⟨e2, tr2⟩
    rw [h2] at hspec2 htot2
    dsimp only at hspec2 htot2
    have hk : ∀ k0, k0 < 10000 → (∀ j, j < k0 → (reads j).testBit 31 = false) →
        (reads k0).testBit 31 = true → k = k0 + 1 := by
      intro k0 hk0 hbefore hidle
      exact LoopEnd.exited.inj
        (hspec1.2 k0 hk0 (fun j hj => busy_of_clear _ (hbefore j hj)) (idle_of_set _ hidle))
    have hnot : ¬ ∀ j, j < 10000 → (reads j).testBit 31 = false :=
      fun hall => LoopEnd.noConfusion (hspec1.1 (fun j hj => busy_of_clear _ (hall j hj)))
    have hw : ∀ rest : List UsbEvent,
        UsbEvent.usb_write USB_GRSTCTL USB_GRSTCTL_CSFTRST
          ∈ tr1 ++ [UsbEvent.usb_write USB_GRSTCTL USB_GRSTCTL_CSFTRST] ++ rest :=
      fun rest => List.mem_append_left _ (List.mem_append_right _ (List.mem_singleton.mpr rfl))
    cases e2 with
    | out_of_fuel => exact absurd rfl htot2
    | timed_out =>
      rw [usb_core_reset_reset_timeout reads k tr1 tr2 h1 h2]
      refine ⟨Or.inl rfl, fun hall => absurd hall hnot, fun k0 hk0 hbefore hidle => ?_⟩
      have hkk := hk k0 hk0 hbefore hidle
      subst hkk
      refine ⟨hw tr2, fun _ => rfl, fun k1 hk1 hb1 hc1 => ?_⟩
      exact LoopEnd.noConfusion
        (hspec2.2 k1 hk1 (fun j hj => by rw [reset_pending_iff]; exact hb1 j hj)
          (by rw [reset_pending_iff]; exact hc1))
    | exited k2 =>
      rw [usb_core_reset_done reads k k2 tr1 tr2 h1 h2]
      refine ⟨Or.inr rfl, fun hall => absurd hall hnot, fun k0 hk0 hbefore hidle => ?_⟩
      have hkk := hk k0 hk0 hbefore hidle
      subst hkk
      refine ⟨?_, fun hall => ?_, fun _ _ _ _ => rfl⟩
      · exact List.mem_append_left _ (hw tr2)
      · exact LoopEnd.noConfusion
          (hspec2.1 (fun j hj => by rw [reset_pending_iff]; exact hall j hj))

/-- Witness of C18. A register that always reads 0 (AHB idle never set): the first loop
makes its 10000 reads and the call returns -1. A register that reads 1 three times (busy),
then `2^31 + 1` three times (idle, reset pending), then `2^31` (idle, reset done): the
first loop exits on read 3, the second loop polls three times and exits on read 7, and the
call returns 0. A register that reads `2^31 + 1` for ever: the first loop exits at once and
the second times out, so the call returns -1 after the soft-reset write. -/
theorem usb_core_reset_bounded_witness :
    (usb_core_reset (fun _ => 0)).ret = some (-1) ∧
      (usb_core_reset
        (fun j => if j < 3 then 1 else if j < 7 then 2 ^ 31 + 1 else 2 ^ 31)).ret = some 0 ∧
      (usb_core_reset (fun _ => 2 ^ 31 + 1)).ret = some (-1) :=
  ⟨((usb_core_reset_bounded (fun _ => 0)).2.1 (fun _ _ => by decide)).1,
    ((usb_core_reset_bounded
      (fun j => if j < 3 then 1 else if j < 7 then 2 ^ 31 + 1 else 2 ^ 31)).2.2 3
      (by decide) (fun j hj => by interval_cases j <;> decide) (by decide)).2.2 3
      (by decide) (fun j hj => by interval_cases j <;> decide) (by decide),
    ((usb_core_reset_bounded (fun _ => 2 ^ 31 + 1)).2.2 0 (by decide)
      (fun j hj => absurd hj (Nat.not_lt_zero j)) (by decide)).2.1 (fun _ _ => by decide)⟩

/-! ## C19: `net_send_packet` -/

theorem send_refused (NET_STATE_UP NET_STATE_LINK_UP ETH_FRAME_LEN CTR_MOD : Nat)
    (net_dev : net_device) (length : Nat)
    (hs : net_dev.state ≠ NET_STATE_UP ∧ net_dev.state ≠ NET_STATE_LINK_UP) :
    net_send_packet NET_STATE_UP NET_STATE_LINK_UP ETH_FRAME_LEN CTR_MOD net_dev length
      = (-1, net_dev) := by
  unfold net_send_packet
  rw [if_pos hs]

theorem send_too_long (NET_STATE_UP NET_STATE_LINK_UP ETH_FRAME_LEN CTR_MOD : Nat)
    (net_dev : net_device) (length : Nat)
    (hs : ¬ (net_dev.state ≠ NET_STATE_UP ∧ net_dev.state ≠ NET_STATE_LINK_UP))
    (hl : length > ETH_FRAME_LEN) :
    net_send_packet NET_STATE_UP NET_STATE_LINK_UP ETH_FRAME_LEN CTR_MOD net_dev length
      = (-2, { net_dev with tx_errors := (net_dev.tx_errors + 1) % CTR_MOD }) := by
  unfold net_send_packet
  rw [if_neg hs, if_pos hl]

theorem send_accepted (NET_STATE_UP NET_STATE_LINK_UP ETH_FRAME_LEN CTR_MOD : Nat)
    (net_dev : net_device) (length : Nat)
    (hs : ¬ (net_dev.state ≠ NET_STATE_UP ∧ net_dev.state ≠ NET_STATE_LINK_UP))
    (hl : ¬ length > ETH_FRAME_LEN) :
    net_send_packet NET_STATE_UP NET_STATE_LINK_UP ETH_FRAME_LEN CTR_MOD net_dev length
      = (0, { net_dev with tx_packets := (net_dev.tx_packets + 1) % CTR_MOD }) := by
  unfold net_send_packet
  rw [if_neg hs, if_neg hl]

/-- C19 (`net_send_packet` result and counters): for every device state and length, with
`NET_STATE_UP`, `NET_STATE_LINK_UP`, `ETH_FRAME_LEN` and the range `CTR_MOD` of the counter
type as parameters: if the state is neither `NET_STATE_UP` nor `NET_STATE_LINK_UP` the
call returns -1 and leaves `net_dev` as it was; otherwise, if `length > ETH_FRAME_LEN`, it
returns -2 and only `tx_errors` changes, by `++` (plus one, modulo the range of its type);
otherwise it returns 0 and only `tx_packets` changes, by `++`. In every case the state, the
MAC address, the link speed and the rx counters are unchanged. -/
theorem net_send_packet_spec (NET_STATE_UP NET_STATE_LINK_UP ETH_FRAME_LEN CTR_MOD : Nat)
    (net_dev : net_device) (length : Nat) :
    (net_dev.state ≠ NET_STATE_UP ∧ net_dev.state ≠ NET_STATE_LINK_UP →
        net_send_packet NET_STATE_UP NET_STATE_LINK_UP ETH_FRAME_LEN CTR_MOD net_dev length
          = (-1, net_dev)) ∧
      (¬ (net_dev.state ≠ NET_STATE_UP ∧ net_dev.state ≠ NET_STATE_LINK_UP) →
        length > ETH_FRAME_LEN →
        net_send_packet NET_STATE_UP NET_STATE_LINK_UP ETH_FRAME_LEN CTR_MOD net_dev length
            = (-2, { net_dev with tx_errors := (net_dev.tx_errors + 1) % CTR_MOD }) ∧
          (net_dev.tx_errors + 1 < CTR_MOD →
            (net_send_packet NET_STATE_UP NET_STATE_LINK_UP ETH_FRAME_LEN CTR_MOD net_dev
              length).2.tx_errors = net_dev.tx_errors + 1)) ∧
      (¬ (net_dev.state ≠ NET_STATE_UP ∧ net_dev.state ≠ NET_STATE_LINK_UP) →
        ¬ length > ETH_FRAME_LEN →
        net_send_packet NET_STATE_UP NET_STATE_LINK_UP ETH_FRAME_LEN CTR_MOD net_dev length
            = (0, { net_dev with tx_packets := (net_dev.tx_packets + 1) % CTR_MOD }) ∧
          (net_dev.tx_packets + 1 < CTR_MOD →
            (net_send_packet NET_STATE_UP NET_STATE_LINK_UP ETH_FRAME_LEN CTR_MOD net_dev
              length).2.tx_packets = net_dev.tx_packets + 1)) ∧
      ((net_send_packet NET_STATE_UP NET_STATE_LINK_UP ETH_FRAME_LEN CTR_MOD net_dev
            length).2.state = net_dev.state ∧
        (net_send_packet NET_STATE_UP NET_STATE_LINK_UP ETH_FRAME_LEN CTR_MOD net_dev
            length).2.mac_addr = net_dev.mac_addr ∧
        (net_send_packet NET_STATE_UP NET_STATE_LINK_UP ETH_FRAME_LEN CTR_MOD net_dev
            length).2.link_speed = net_dev.link_speed ∧
        (net_send_packet NET_STATE_UP NET_STATE_LINK_UP ETH_FRAME_LEN CTR_MOD net_dev
            length).2.rx_packets = net_dev.rx_packets ∧
        (net_send_packet NET_STATE_UP NET_STATE_LINK_UP ETH_FRAME_LEN CTR_MOD net_dev
            length).2.rx_errors = net_dev.rx_errors) := by
  refine ⟨send_refused NET_STATE_UP NET_STATE_LINK_UP ETH_FRAME_LEN CTR_MOD net_dev length,
    fun hs hl => ⟨send_too_long _ _ _ _ _ _ hs hl, fun h => ?_⟩,
    fun hs hl => ⟨send_accepted _ _ _ _ _ _ hs hl, fun h => ?_⟩, ?_⟩
  · rw [send_too_long _ _ _ _ _ _ hs hl]
    exact Nat.mod_eq_of_lt h
  · rw [send_accepted _ _ _ _ _ _ hs hl]
    exact Nat.mod_eq_of_lt h
  · by_cases hs : net_dev.state ≠ NET_STATE_UP ∧ net_dev.state ≠ NET_STATE_LINK_UP
    · rw [send_refused _ _ _ _ _ _ hs]
      exact ⟨rfl, rfl, rfl, rfl, rfl⟩
    · by_cases hl : length > ETH_FRAME_LEN
      · rw [send_too_long _ _ _ _ _ _ hs hl]
        exact ⟨rfl, rfl, rfl, rfl, rfl⟩
      · rw [send_accepted _ _ _ _ _ _ hs hl]
        exact ⟨rfl, rfl, rfl, rfl, rfl⟩

/-- Witness of C19: with states numbered DOWN = 0, UP = 1, LINK_DOWN = 2, LINK_UP = 3, a
frame limit of 1514 and 32-bit counters, a frame of 2000 bytes sent on an interface that is
up is refused and counted as a transmit error. -/
theorem net_send_packet_spec_witness :
    net_send_packet 1 3 1514 (2 ^ 32)
        { mac_addr := [0xB8, 0x27, 0xEB, 0x00, 0x00, 0x01], state := 1, link_speed := 0,
          rx_packets := 0, tx_packets := 4, rx_errors := 0, tx_errors := 2 } 2000
      = (-2, { mac_addr := [0xB8, 0x27, 0xEB, 0x00, 0x00, 0x01], state := 1,
               link_speed := 0, rx_packets := 0, tx_packets := 4, rx_errors := 0,
               tx_errors := (2 + 1) % 2 ^ 32 }) :=
  ((net_send_packet_spec 1 3 1514 (2 ^ 32)
    { mac_addr := [0xB8, 0x27, 0xEB, 0x00, 0x00, 0x01], state := 1, link_speed := 0,
      rx_packets := 0, tx_packets := 4, rx_errors := 0, tx_errors := 2 } 2000).2.1
    (by decide) (by decide)).1

end Net
